import Mathlib

/-!
# fabio `proxy/util.go`: forwarding-header enrichment

A shallow embedding of `addHeaders`, `localPort` and `target` from
`src/proxy/util.go`, together with the parts of the Go standard library they
call (`net.SplitHostPort`, `net/http.Header.Get`/`Set`,
`net/textproto.CanonicalMIMEHeaderKey`, `strings.Index`).

Modelling conventions
* A Go `string` is a Lean `String`.  Go indexes bytes and Lean indexes
  characters; every index computed here is the position of one of the ASCII
  bytes `:`, `[`, `]`, and every slice is cut at such a position, so on valid
  UTF-8 text the two agree.
* Go `int` indices are `Int` (`-1` is "not found").
* `http.Header` is `map[string][]string`; it is modelled as a total function
  from keys to value lists, an absent key being the empty list.  The map of an
  incoming request is never `nil`.
* `addHeaders` mutates `*http.Request` in place and returns an `error`; the
  embedding returns the request after the call together with the optional
  error message.
-/

namespace Fabio

/-! ## Go standard library: byte search and slicing -/

/-- Forward scan for the byte `c`, starting at position `i`; `-1` if absent. -/
def indexByteFrom (c : Char) : List Char → Nat → Int
  | [], _ => -1
  | x :: xs, i => if x = c then (i : Int) else indexByteFrom c xs (i + 1)

/-- Go `bytealg.IndexByteString(s, c)`, which is also `strings.Index(s, string(c))`:
the index of the first `c` in `s`, or `-1`. -/
def IndexByteString (s : String) (c : Char) : Int :=
  indexByteFrom c s.data 0

/-- Go `bytealg.LastIndexByteString(s, c)`: the string is scanned from its last
byte backwards; the index of the last `c` in `s`, or `-1`. -/
def LastIndexByteString (s : String) (c : Char) : Int :=
  let j := indexByteFrom c s.data.reverse 0
  if j < 0 then -1 else (s.data.length : Int) - 1 - j

/-- Go slice expression `s[a:]`. -/
def sliceFrom (s : String) (a : Int) : String :=
  String.mk (s.data.drop a.toNat)

/-- Go slice expression `s[:b]`. -/
def sliceTo (s : String) (b : Int) : String :=
  String.mk (s.data.take b.toNat)

/-- Go slice expression `s[a:b]`. -/
def slice (s : String) (a b : Int) : String :=
  String.mk ((s.data.take b.toNat).drop a.toNat)

/-! ## Go standard library: `net.SplitHostPort` -/

/-- The common tail of `net.SplitHostPort`: no `[` from position `j` on, no `]`
from position `k` on, and the port is what follows the last colon `i`. -/
def splitHostPortTail (hostport host : String) (i j k : Int) :
    Except String (String × String) :=
  if IndexByteString (sliceFrom hostport j) '[' ≥ 0 then
    .error "unexpected '[' in address"
  else if IndexByteString (sliceFrom hostport k) ']' ≥ 0 then
    .error "unexpected ']' in address"
  else
    .ok (host, sliceFrom hostport (i + 1))

/-- Go `net.SplitHostPort(hostport)`: splits `host:port`, `[host]:port` (and
the zone forms) into host and port.  The error carries the reason text of the
`*net.AddrError`. -/
def SplitHostPort (hostport : String) : Except String (String × String) :=
  let i := LastIndexByteString hostport ':'
  if i < 0 then
    .error "missing port in address"
  else if hostport.data.head? = some '[' then
    let e := IndexByteString hostport ']'
    if e < 0 then
      .error "missing ']' in address"
    else if e + 1 = (hostport.data.length : Int) then
      .error "missing port in address"
    else if e + 1 = i then
      splitHostPortTail hostport (slice hostport 1 e) i 1 (e + 1)
    else if hostport.data.get? (e + 1).toNat = some ':' then
      .error "too many colons in address"
    else
      .error "missing port in address"
  else
    let host := sliceTo hostport i
    if IndexByteString host ':' ≥ 0 then
      .error "too many colons in address"
    else
      splitHostPortTail hostport host i 0 0

/-! ## Go standard library: `net/textproto` header-key canonicalisation -/

/-- Go `textproto.validHeaderFieldByte`: the RFC 7230 token bytes. -/
def validHeaderFieldByte (c : Char) : Bool :=
  (decide ('0' ≤ c) && decide (c ≤ '9')) ||
  (decide ('a' ≤ c) && decide (c ≤ 'z')) ||
  (decide ('A' ≤ c) && decide (c ≤ 'Z')) ||
  c == '!' || c == '#' || c == '$' || c == '%' || c == '&' || c == Char.ofNat 39 ||
  c == '*' || c == '+' || c == '-' || c == '.' || c == '^' || c == '_' ||
  c == Char.ofNat 96 || c == '|' || c == '~'

/-- First loop of Go `textproto.canonicalMIMEHeaderKey`: `none` when a byte is
neither a token byte nor a space (the key is returned unchanged), otherwise
`some noCanon`, where `noCanon` records that a space was seen. -/
def scanHeaderKey : List Char → Bool → Option Bool
  | [], noCanon => some noCanon
  | c :: cs, noCanon =>
    if validHeaderFieldByte c then scanHeaderKey cs noCanon
    else if c = ' ' then scanHeaderKey cs true
    else none

/-- Second loop of Go `textproto.canonicalMIMEHeaderKey`: upper case for the
first letter and for a letter after a dash, lower case for every other
letter. -/
def canonLoop : List Char → Bool → List Char
  | [], _ => []
  | c :: cs, upper =>
    let c1 : Char :=
      if upper && decide ('a' ≤ c) && decide (c ≤ 'z') then Char.ofNat (c.toNat - 32)
      else if !upper && decide ('A' ≤ c) && decide (c ≤ 'Z') then Char.ofNat (c.toNat + 32)
      else c
    c1 :: canonLoop cs (c1 == '-')

/-- Go `textproto.canonicalMIMEHeaderKey` (the slow path).  The final lookup in
the table of common headers returns a string with the same bytes and is left
out. -/
def canonicalMIMEHeaderKey (a : List Char) : List Char :=
  match scanHeaderKey a false with
  | none => a
  | some true => a
  | some false => canonLoop a true

/-- Quick check of Go `textproto.CanonicalMIMEHeaderKey`: walks the key and
answers whether the slow path has to run (`true`) or the key is returned as it
is (`false`: it is already canonical, or it holds a byte that is no token
byte). -/
def needsCanon : List Char → Bool → Bool
  | [], _ => false
  | c :: cs, upper =>
    if !validHeaderFieldByte c then false
    else if upper && decide ('a' ≤ c) && decide (c ≤ 'z') then true
    else if !upper && decide ('A' ≤ c) && decide (c ≤ 'Z') then true
    else needsCanon cs (c == '-')

/-- Go `textproto.CanonicalMIMEHeaderKey(s)`. -/
def CanonicalMIMEHeaderKey (s : String) : String :=
  if needsCanon s.data true then String.mk (canonicalMIMEHeaderKey s.data) else s

/-! ## Go standard library: `net/http.Header` -/

/-- Go `http.Header`, a `map[string][]string`; a key that is not in the map
has the empty list. -/
structure Header where
  vals : String → List String

/-- Go `Header.Get(key)`: the first value stored under the canonical form of
`key`, or `""`. -/
def Header.Get (h : Header) (key : String) : String :=
  match h.vals (CanonicalMIMEHeaderKey key) with
  | [] => ""
  | v :: _ => v

/-- Go `Header.Set(key, value)`: replaces whatever is stored under the
canonical form of `key` by the single value `value`. -/
def Header.Set (h : Header) (key value : String) : Header :=
  ⟨fun k => if k = CanonicalMIMEHeaderKey key then [value] else h.vals k⟩

/-! ## Data model -/

/-- Go `tls.ConnectionState`; `addHeaders` and `localPort` only test the
pointer `r.TLS` against `nil`. -/
structure ConnectionState where
  Version : Nat
  ServerName : String
  deriving DecidableEq

/-- The fields of Go `http.Request` that `proxy/util.go` uses; `URL` is the
text `r.URL` prints as. -/
structure Request where
  Header : Header
  RemoteAddr : String
  TLS : Option ConnectionState
  Host : String
  URL : String

/-- Modelled from the spec: the struct `config.Proxy` (package
`github.com/eBay/fabio/config` is not part of the sources at hand); these are
the four fields the spec lists for `ProxyConfig` and `addHeaders` reads. -/
structure Proxy where
  ClientIPHeader : String
  LocalIP : String
  TLSHeader : String
  TLSHeaderValue : String
  deriving DecidableEq

/-! ## `proxy/util.go` -/

/-- `localPort` (util.go 101-113).  The argument is the pointer `r`, `none`
being `nil`. -/
def localPort (r : Option Request) : String :=
  match r with
  | none => ""
  | some r =>
    let n := IndexByteString r.Host ':'
    if n > 0 ∧ n < (r.Host.data.length : Int) - 1 then
      sliceFrom r.Host (n + 1)
    else if r.TLS.isSome then
      "443"
    else
      "80"

/-- Lines 31-35 of `addHeaders`: the configurable client-IP header. -/
def setClientIPHeader (cfg : Proxy) (remoteIP : String) (h : Header) : Header :=
  if cfg.ClientIPHeader ≠ "" ∧
      cfg.ClientIPHeader ≠ "X-Forwarded-For" ∧
      cfg.ClientIPHeader ≠ "X-Real-Ip" then
    h.Set cfg.ClientIPHeader remoteIP
  else h

/-- Lines 37-39 of `addHeaders`: `X-Real-Ip`, if not present. -/
def setRealIP (remoteIP : String) (h : Header) : Header :=
  if h.Get "X-Real-Ip" = "" then h.Set "X-Real-Ip" remoteIP else h

/-- Lines 45-47 of `addHeaders`: `X-Forwarded-For` for websocket requests. -/
def setForwardedFor (ws : Bool) (remoteIP : String) (h : Header) : Header :=
  if ws then h.Set "X-Forwarded-For" remoteIP else h

/-- Lines 49-60 of `addHeaders`: `X-Forwarded-Proto`, if not present. -/
def setForwardedProto (ws tls : Bool) (h : Header) : Header :=
  if h.Get "X-Forwarded-Proto" = "" then
    if ws && tls then h.Set "X-Forwarded-Proto" "wss"
    else if ws && !tls then h.Set "X-Forwarded-Proto" "ws"
    else if tls then h.Set "X-Forwarded-Proto" "https"
    else h.Set "X-Forwarded-Proto" "http"
  else h

/-- Lines 62-64 of `addHeaders`: `X-Forwarded-Port`, if not present. -/
def setForwardedPort (r : Request) (h : Header) : Header :=
  if h.Get "X-Forwarded-Port" = "" then
    h.Set "X-Forwarded-Port" (localPort (some { r with Header := h }))
  else h

/-- Lines 66-79 of `addHeaders`: the `Forwarded` value before the `by=` part. -/
def forwardedBase (ws tls : Bool) (remoteIP : String) (h : Header) : String :=
  let fwd := h.Get "Forwarded"
  if fwd = "" then
    let fwd := "for=" ++ remoteIP
    if ws && tls then fwd ++ "; proto=wss"
    else if ws && !tls then fwd ++ "; proto=ws"
    else if tls then fwd ++ "; proto=https"
    else fwd ++ "; proto=http"
  else fwd

/-- Lines 66-83 of `addHeaders`: add/update the `Forwarded` header. -/
def setForwarded (cfg : Proxy) (ws tls : Bool) (remoteIP : String) (h : Header) : Header :=
  let fwd := forwardedBase ws tls remoteIP h
  let fwd := if cfg.LocalIP ≠ "" then fwd ++ ("; by=" ++ cfg.LocalIP) else fwd
  h.Set "Forwarded" fwd

/-- Lines 85-87 of `addHeaders`: the TLS header. -/
def setTLSHeader (cfg : Proxy) (tls : Bool) (h : Header) : Header :=
  if cfg.TLSHeader ≠ "" ∧ tls = true then h.Set cfg.TLSHeader cfg.TLSHeaderValue else h

/-- The header map of `addHeaders` after the peer address parsed to
`remoteIP` (util.go 28-87), statement by statement. -/
def enrich (r : Request) (cfg : Proxy) (remoteIP : String) : Header :=
  let tls := r.TLS.isSome
  let h := setClientIPHeader cfg remoteIP r.Header
  let h := setRealIP remoteIP h
  let ws := decide (h.Get "Upgrade" = "websocket")
  let h := setForwardedFor ws remoteIP h
  let h := setForwardedProto ws tls h
  let h := setForwardedPort r h
  let h := setForwarded cfg ws tls remoteIP h
  setTLSHeader cfg tls h

/-- `addHeaders` (util.go 22-90): the request after the call and the returned
error (`none` is `nil`). -/
def addHeaders (r : Request) (cfg : Proxy) : Request × Option String :=
  match SplitHostPort r.RemoteAddr with
  | .error _ => (r, some ("cannot parse " ++ r.RemoteAddr))
  | .ok (remoteIP, _) => ({ r with Header := enrich r cfg remoteIP }, none)

/-- Modelled from the spec: `route.Target` (package
`github.com/eBay/fabio/route` is not part of the sources at hand), the handle
of a backend the routing table returns; `none` is the `nil` pointer. -/
structure Target where
  URL : String
  deriving DecidableEq

/-- `target` (util.go 92-99).  The routing table `route.GetTable()` is
external, so its `Lookup` is an argument; the result is the looked-up target
together with the lines handed to `log.Print`, which joins its operands
without blanks when one of two neighbours is a string. -/
def target (lookup : Request → String → Option Target) (r : Request) :
    Option Target × List String :=
  let t := lookup r (r.Header.Get "trace")
  match t with
  | none => (t, ["[WARN] No route for " ++ r.Host ++ r.URL])
  | some _ => (t, [])

/-! ## Hypotheses of the claims -/

/-- The headers `addHeaders` reads or writes under a fixed name. -/
def managedHeaders : List String :=
  ["Upgrade", "X-Real-Ip", "X-Forwarded-For", "X-Forwarded-Proto", "X-Forwarded-Port",
    "Forwarded"]

/-- A configured header name that is empty, or that names none of the managed
headers: its canonical form, which is the key `Header.Set` writes, is none of
them. -/
def sparesManaged (name : String) : Prop :=
  name = "" ∨ CanonicalMIMEHeaderKey name ∉ managedHeaders

instance (name : String) : Decidable (sparesManaged name) := by
  unfold sparesManaged; infer_instance

/-- The derived fact `isWebSocket` of the spec: the `Upgrade` header of the
request on entry is exactly `websocket`. -/
def isWebSocket (r : Request) : Prop :=
  r.Header.Get "Upgrade" = "websocket"

instance (r : Request) : Decidable (isWebSocket r) := by
  unfold isWebSocket; infer_instance

/-- The derived fact `isTLS` of the spec: the transport reports a TLS session,
`r.TLS != nil`. -/
def isTLS (r : Request) : Prop :=
  r.TLS.isSome = true

instance (r : Request) : Decidable (isTLS r) := by
  unfold isTLS; infer_instance

/-- The protocol matrix as the spec words it (section 4.1, step 4):
`(isWebSocket, isTLS) → wss | ws | https | http`. -/
def specProto (r : Request) : String :=
  if isWebSocket r then (if isTLS r then "wss" else "ws")
  else if isTLS r then "https" else "http"

/-- None of the characters `cs` occurs in `s`. -/
def freeOf (s : String) (cs : List Char) : Prop :=
  ∀ c ∈ cs, c ∉ s.data

instance (s : String) (cs : List Char) : Decidable (freeOf s cs) := by
  unfold freeOf; infer_instance

/-- A well-formed peer address `host:port` or `[host]:port`: in the plain form
neither part holds a colon or a bracket, in the bracketed form (IPv6 literals)
the host holds no bracket and the port no colon or bracket. -/
inductive WellFormedHostPort : String → String → String → Prop
  | plain (host port : String) (hh : freeOf host [':', '[', ']'])
      (hq : freeOf port [':', '[', ']']) :
      WellFormedHostPort (host ++ ":" ++ port) host port
  | bracketed (host port : String) (hh : freeOf host ['[', ']'])
      (hq : freeOf port [':', '[', ']']) :
      WellFormedHostPort ("[" ++ host ++ "]:" ++ port) host port

/-! ## Sample requests and configurations -/

/-- A header map with the given entries (keys in canonical form). -/
def headerOf (kvs : List (String × String)) : Header :=
  ⟨fun k => (kvs.filter (fun kv => kv.1 == k)).map (fun kv => kv.2)⟩

/-- A request from peer `1.2.3.4:5678` for host `example.com:8080`. -/
def sampleRequest (kvs : List (String × String)) (tls : Bool) : Request :=
  { Header := headerOf kvs
    RemoteAddr := "1.2.3.4:5678"
    TLS := if tls then some ⟨771, "example.com"⟩ else none
    Host := "example.com:8080"
    URL := "/" }

/-- A configuration with no client-IP header and no TLS header. -/
def plainConfig : Proxy :=
  { ClientIPHeader := "", LocalIP := "10.0.0.1", TLSHeader := "", TLSHeaderValue := "" }

/-- Lines 31-35 of `addHeaders` fire and write the header stored under the
canonical key `k`. -/
def clientIPWrites (cfg : Proxy) (k : String) : Prop :=
  (cfg.ClientIPHeader ≠ "" ∧ cfg.ClientIPHeader ≠ "X-Forwarded-For" ∧
      cfg.ClientIPHeader ≠ "X-Real-Ip") ∧
    k = CanonicalMIMEHeaderKey cfg.ClientIPHeader

instance (cfg : Proxy) (k : String) : Decidable (clientIPWrites cfg k) := by
  unfold clientIPWrites; infer_instance

/-- Lines 85-87 of `addHeaders` fire and write the header stored under the
canonical key `k`. -/
def tlsWrites (cfg : Proxy) (r : Request) (k : String) : Prop :=
  (cfg.TLSHeader ≠ "" ∧ r.TLS.isSome = true) ∧ k = CanonicalMIMEHeaderKey cfg.TLSHeader

instance (cfg : Proxy) (r : Request) (k : String) : Decidable (tlsWrites cfg r k) := by
  unfold tlsWrites; infer_instance

/-- A TLS request from peer `1.2.3.4:5678` that carries `X-Real-Ip: 9.9.9.9`. -/
def realIPRequest : Request :=
  sampleRequest [("X-Real-Ip", "9.9.9.9")] true

/-- A configuration whose TLS header is `X-Real-Ip`. -/
def tlsRealIPConfig : Proxy :=
  { ClientIPHeader := "", LocalIP := "", TLSHeader := "X-Real-Ip", TLSHeaderValue := "on" }

/-- A TLS request without headers whose peer address `:80` has an empty host
part. -/
def emptyHostPeerRequest : Request :=
  { Header := headerOf []
    RemoteAddr := ":80"
    TLS := some ⟨771, "example.com"⟩
    Host := "example.com"
    URL := "/" }

/-- A configuration that stamps the client IP into `X-Forwarded-Proto` and
marks TLS connections by `Upgrade: websocket`. -/
def protoStampConfig : Proxy :=
  { ClientIPHeader := "X-Forwarded-Proto", LocalIP := "", TLSHeader := "Upgrade",
    TLSHeaderValue := "websocket" }

/-- A configuration with the client-IP header `X-Client-Ip` and the TLS header
`Strict-Transport-Security`. -/
def stampConfig : Proxy :=
  { ClientIPHeader := "X-Client-Ip", LocalIP := "10.0.0.1",
    TLSHeader := "Strict-Transport-Security", TLSHeaderValue := "max-age=63072000" }

/-- The proto token of a `Forwarded` value synthesized for the client `ip`: the
text after `for=<ip>; proto=` up to the next `;` or the end (empty when the
value does not start that way). -/
def synthProtoToken (ip fwd : String) : String :=
  if ("for=" ++ ip ++ "; proto=").data.isPrefixOf fwd.data then
    String.mk (((fwd.data.drop ("for=" ++ ip ++ "; proto=").data.length)).takeWhile
      (fun c => c != ';'))
  else ""

/-- The five forwarding headers `addHeaders` writes under a fixed name. -/
def forwardingHeaders : List String :=
  ["X-Real-Ip", "X-Forwarded-For", "X-Forwarded-Proto", "X-Forwarded-Port", "Forwarded"]

/-- A request from peer `1.2.3.4:5678` for the host string `host`. -/
def hostRequest (host : String) (tls : Bool) : Request :=
  { Header := headerOf []
    RemoteAddr := "1.2.3.4:5678"
    TLS := if tls then some ⟨771, "example.com"⟩ else none
    Host := host
    URL := "/" }

/-- A configuration whose client-IP header is the lower-case `x-real-ip`. -/
def lowerRealIPConfig : Proxy :=
  { ClientIPHeader := "x-real-ip", LocalIP := "", TLSHeader := "", TLSHeaderValue := "" }

/-- A configuration whose client-IP header is the lower-case
`x-forwarded-for`. -/
def lowerForwardedForConfig : Proxy :=
  { ClientIPHeader := "x-forwarded-for", LocalIP := "", TLSHeader := "", TLSHeaderValue := "" }

/-- A routing table without routes. -/
def emptyTable : Request → String → Option Target :=
  fun _ _ => none

/-- A routing table with one route, for the host `example.com:8080`. -/
def oneRouteTable : Request → String → Option Target :=
  fun r _ => if r.Host = "example.com:8080" then some ⟨"http://10.1.1.1:9000/"⟩ else none

/-- A configuration whose TLS header `X-Tls-Info` and client-IP header
`x-tls-info` are different strings that name the same header. -/
def sameHeaderConfig : Proxy :=
  { ClientIPHeader := "x-tls-info", LocalIP := "", TLSHeader := "X-Tls-Info",
    TLSHeaderValue := "on" }

/-! ## Lemmas: header map -/

theorem Header.Get_Set (h : Header) (k k' v : String) :
    (h.Set k v).Get k' =
      if CanonicalMIMEHeaderKey k' = CanonicalMIMEHeaderKey k then v else h.Get k' := by
  unfold Header.Get Header.Set
  by_cases hk : CanonicalMIMEHeaderKey k' = CanonicalMIMEHeaderKey k <;> simp [hk]

theorem Header.Get_Set_self (h : Header) (k v : String) : (h.Set k v).Get k = v := by
  simp [Header.Get_Set]

theorem canon_upgrade : CanonicalMIMEHeaderKey "Upgrade" = "Upgrade" := by decide
theorem canon_realIP : CanonicalMIMEHeaderKey "X-Real-Ip" = "X-Real-Ip" := by decide
theorem canon_forwardedFor : CanonicalMIMEHeaderKey "X-Forwarded-For" = "X-Forwarded-For" := by
  decide
theorem canon_forwardedProto :
    CanonicalMIMEHeaderKey "X-Forwarded-Proto" = "X-Forwarded-Proto" := by decide
theorem canon_forwardedPort :
    CanonicalMIMEHeaderKey "X-Forwarded-Port" = "X-Forwarded-Port" := by decide
theorem canon_forwarded : CanonicalMIMEHeaderKey "Forwarded" = "Forwarded" := by decide

/-! ## Lemmas: the statements of `addHeaders`, one at a time -/

theorem Get_setClientIPHeader (cfg : Proxy) (ip : String) (h : Header) (k : String) :
    (setClientIPHeader cfg ip h).Get k =
      if (cfg.ClientIPHeader ≠ "" ∧ cfg.ClientIPHeader ≠ "X-Forwarded-For" ∧
            cfg.ClientIPHeader ≠ "X-Real-Ip") ∧
          CanonicalMIMEHeaderKey k = CanonicalMIMEHeaderKey cfg.ClientIPHeader
      then ip else h.Get k := by
  unfold setClientIPHeader
  by_cases hg : cfg.ClientIPHeader ≠ "" ∧ cfg.ClientIPHeader ≠ "X-Forwarded-For" ∧
      cfg.ClientIPHeader ≠ "X-Real-Ip"
  · rw [if_pos hg, Header.Get_Set]
    by_cases hk : CanonicalMIMEHeaderKey k = CanonicalMIMEHeaderKey cfg.ClientIPHeader
    · rw [if_pos hk, if_pos ⟨hg, hk⟩]
    · rw [if_neg hk, if_neg (fun hh => hk hh.2)]
  · rw [if_neg hg, if_neg (fun hh => hg hh.1)]

theorem Get_setRealIP (ip : String) (h : Header) (k : String) :
    (setRealIP ip h).Get k =
      if h.Get "X-Real-Ip" = "" ∧ CanonicalMIMEHeaderKey k = "X-Real-Ip" then ip
      else h.Get k := by
  unfold setRealIP
  by_cases hg : h.Get "X-Real-Ip" = ""
  · simp only [hg, if_true, true_and, Header.Get_Set, canon_realIP]
  · simp only [hg, if_false, false_and]

theorem Get_setForwardedFor (ws : Bool) (ip : String) (h : Header) (k : String) :
    (setForwardedFor ws ip h).Get k =
      if ws = true ∧ CanonicalMIMEHeaderKey k = "X-Forwarded-For" then ip else h.Get k := by
  unfold setForwardedFor
  cases ws
  · simp
  · simp [Header.Get_Set, canon_forwardedFor]

theorem Get_setForwardedProto (ws tls : Bool) (h : Header) (k : String) :
    (setForwardedProto ws tls h).Get k =
      if h.Get "X-Forwarded-Proto" = "" ∧ CanonicalMIMEHeaderKey k = "X-Forwarded-Proto" then
        (if ws && tls then "wss" else if ws && !tls then "ws" else if tls then "https"
          else "http")
      else h.Get k := by
  unfold setForwardedProto
  by_cases hg : h.Get "X-Forwarded-Proto" = ""
  · cases ws <;> cases tls <;>
      simp [hg, Header.Get_Set, canon_forwardedProto]
  · simp only [hg, if_false, false_and]

theorem Get_setForwardedPort (r : Request) (h : Header) (k : String) :
    (setForwardedPort r h).Get k =
      if h.Get "X-Forwarded-Port" = "" ∧ CanonicalMIMEHeaderKey k = "X-Forwarded-Port" then
        localPort (some { r with Header := h })
      else h.Get k := by
  unfold setForwardedPort
  by_cases hg : h.Get "X-Forwarded-Port" = ""
  · simp only [hg, if_true, true_and, Header.Get_Set, canon_forwardedPort]
  · simp only [hg, if_false, false_and]

theorem Get_setForwarded (cfg : Proxy) (ws tls : Bool) (ip : String) (h : Header)
    (k : String) :
    (setForwarded cfg ws tls ip h).Get k =
      if CanonicalMIMEHeaderKey k = "Forwarded" then
        (if cfg.LocalIP ≠ "" then forwardedBase ws tls ip h ++ ("; by=" ++ cfg.LocalIP)
          else forwardedBase ws tls ip h)
      else h.Get k := by
  unfold setForwarded
  simp only [Header.Get_Set, canon_forwarded]

theorem Get_setTLSHeader (cfg : Proxy) (tls : Bool) (h : Header) (k : String) :
    (setTLSHeader cfg tls h).Get k =
      if (cfg.TLSHeader ≠ "" ∧ tls = true) ∧
          CanonicalMIMEHeaderKey k = CanonicalMIMEHeaderKey cfg.TLSHeader
      then cfg.TLSHeaderValue else h.Get k := by
  unfold setTLSHeader
  by_cases hg : cfg.TLSHeader ≠ "" ∧ tls = true
  · rw [if_pos hg, Header.Get_Set]
    by_cases hk : CanonicalMIMEHeaderKey k = CanonicalMIMEHeaderKey cfg.TLSHeader
    · rw [if_pos hk, if_pos ⟨hg, hk⟩]
    · rw [if_neg hk, if_neg (fun hh => hk hh.2)]
  · rw [if_neg hg, if_neg (fun hh => hg hh.1)]

/-- A configured name that spares the managed headers is not the key of a
managed header whenever the statement using it fires. -/
theorem sparesManaged_ne {name k : String} (hs : sparesManaged name)
    (hk : CanonicalMIMEHeaderKey k ∈ managedHeaders) :
    ¬ (name ≠ "" ∧ CanonicalMIMEHeaderKey k = CanonicalMIMEHeaderKey name) := by
  rintro ⟨hne, heq⟩
  rcases hs with hs | hs
  · exact hne hs
  · exact hs (heq ▸ hk)

theorem Get_setClientIPHeader_spared {cfg : Proxy} (hs : sparesManaged cfg.ClientIPHeader)
    (ip : String) (h : Header) (k : String)
    (hk : CanonicalMIMEHeaderKey k ∈ managedHeaders) :
    (setClientIPHeader cfg ip h).Get k = h.Get k := by
  rw [Get_setClientIPHeader, if_neg]
  rintro ⟨⟨hne, _, _⟩, heq⟩
  exact sparesManaged_ne hs hk ⟨hne, heq⟩

theorem Get_setTLSHeader_spared {cfg : Proxy} (hs : sparesManaged cfg.TLSHeader)
    (tls : Bool) (h : Header) (k : String)
    (hk : CanonicalMIMEHeaderKey k ∈ managedHeaders) :
    (setTLSHeader cfg tls h).Get k = h.Get k := by
  rw [Get_setTLSHeader, if_neg]
  rintro ⟨⟨hne, _⟩, heq⟩
  exact sparesManaged_ne hs hk ⟨hne, heq⟩

/-- With both configured names sparing the managed headers, the websocket
flag `addHeaders` computes is the one of the request on entry. -/
theorem Get_upgrade_pre {cfg : Proxy} (hC : sparesManaged cfg.ClientIPHeader)
    (ip : String) (h : Header) :
    (setRealIP ip (setClientIPHeader cfg ip h)).Get "Upgrade" = h.Get "Upgrade" := by
  rw [Get_setRealIP, canon_upgrade, if_neg (by simp),
    Get_setClientIPHeader_spared hC ip h "Upgrade" (by decide)]

theorem addHeaders_ok {r : Request} {ip port : String} (cfg : Proxy)
    (hp : SplitHostPort r.RemoteAddr = .ok (ip, port)) :
    addHeaders r cfg = ({ r with Header := enrich r cfg ip }, none) := by
  unfold addHeaders
  rw [hp]


/-! ## `X-Forwarded-Proto`, `Forwarded`, `X-Forwarded-For` after `addHeaders` -/

theorem enrich_Get_forwardedProto (r : Request) (cfg : Proxy) (ip : String)
    (hC : sparesManaged cfg.ClientIPHeader) (hT : sparesManaged cfg.TLSHeader) :
    (enrich r cfg ip).Get "X-Forwarded-Proto" =
      if r.Header.Get "X-Forwarded-Proto" = "" then
        (if decide (r.Header.Get "Upgrade" = "websocket") && r.TLS.isSome then "wss"
          else if decide (r.Header.Get "Upgrade" = "websocket") && !r.TLS.isSome then "ws"
          else if r.TLS.isSome then "https" else "http")
      else r.Header.Get "X-Forwarded-Proto" := by
  have c1 := fun h => Get_setClientIPHeader_spared hC ip h "X-Forwarded-Proto" (by decide)
  have c2 := fun h => Get_setClientIPHeader_spared hC ip h "Upgrade" (by decide)
  have t1 := fun b h => Get_setTLSHeader_spared hT b h "X-Forwarded-Proto" (by decide)
  simp only [enrich, t1, Get_setForwarded, Get_setForwardedPort, Get_setForwardedProto,
    Get_setForwardedFor, Get_setRealIP, c1, c2, canon_forwardedProto, canon_upgrade]
  simp

theorem enrich_Get_forwarded (r : Request) (cfg : Proxy) (ip : String)
    (hC : sparesManaged cfg.ClientIPHeader) (hT : sparesManaged cfg.TLSHeader) :
    (enrich r cfg ip).Get "Forwarded" =
      (if r.Header.Get "Forwarded" = "" then
        (if decide (r.Header.Get "Upgrade" = "websocket") && r.TLS.isSome then
            "for=" ++ ip ++ "; proto=wss"
          else if decide (r.Header.Get "Upgrade" = "websocket") && !r.TLS.isSome then
            "for=" ++ ip ++ "; proto=ws"
          else if r.TLS.isSome then "for=" ++ ip ++ "; proto=https"
          else "for=" ++ ip ++ "; proto=http")
      else r.Header.Get "Forwarded") ++
      (if cfg.LocalIP ≠ "" then "; by=" ++ cfg.LocalIP else "") := by
  have c1 := fun h => Get_setClientIPHeader_spared hC ip h "Forwarded" (by decide)
  have c2 := fun h => Get_setClientIPHeader_spared hC ip h "Upgrade" (by decide)
  have t1 := fun b h => Get_setTLSHeader_spared hT b h "Forwarded" (by decide)
  simp only [enrich, forwardedBase, t1, Get_setForwarded, Get_setForwardedPort,
    Get_setForwardedProto, Get_setForwardedFor, Get_setRealIP, c1, c2, canon_forwarded,
    canon_upgrade]
  by_cases hL : cfg.LocalIP = "" <;> simp [hL]

theorem enrich_Get_forwardedFor (r : Request) (cfg : Proxy) (ip : String)
    (hC : sparesManaged cfg.ClientIPHeader) (hT : sparesManaged cfg.TLSHeader) :
    (enrich r cfg ip).Get "X-Forwarded-For" =
      if r.Header.Get "Upgrade" = "websocket" then ip
      else r.Header.Get "X-Forwarded-For" := by
  have c1 := fun h => Get_setClientIPHeader_spared hC ip h "X-Forwarded-For" (by decide)
  have c2 := fun h => Get_setClientIPHeader_spared hC ip h "Upgrade" (by decide)
  have t1 := fun b h => Get_setTLSHeader_spared hT b h "X-Forwarded-For" (by decide)
  simp only [enrich, t1, Get_setForwarded, Get_setForwardedPort, Get_setForwardedProto,
    Get_setForwardedFor, Get_setRealIP, c1, c2, canon_forwardedFor, canon_upgrade]
  simp

/-- C1: for a request with a parseable peer address and no `X-Forwarded-Proto`
on entry, and a config whose `ClientIPHeader` and `TLSHeader` are each empty or
name none of the managed headers, `X-Forwarded-Proto` after `addHeaders` is
`wss` for a WebSocket upgrade over TLS, `ws` for a WebSocket upgrade without
TLS, `https` without upgrade over TLS and `http` otherwise; a value present on
entry is left untouched. -/
theorem addHeaders_forwardedProto_matrix (r : Request) (cfg : Proxy) (ip port : String)
    (hp : SplitHostPort r.RemoteAddr = .ok (ip, port))
    (hC : sparesManaged cfg.ClientIPHeader) (hT : sparesManaged cfg.TLSHeader) :
    (r.Header.Get "X-Forwarded-Proto" = "" →
      (isWebSocket r ∧ isTLS r →
        (addHeaders r cfg).1.Header.Get "X-Forwarded-Proto" = "wss") ∧
      (isWebSocket r ∧ ¬ isTLS r →
        (addHeaders r cfg).1.Header.Get "X-Forwarded-Proto" = "ws") ∧
      (¬ isWebSocket r ∧ isTLS r →
        (addHeaders r cfg).1.Header.Get "X-Forwarded-Proto" = "https") ∧
      (¬ isWebSocket r ∧ ¬ isTLS r →
        (addHeaders r cfg).1.Header.Get "X-Forwarded-Proto" = "http")) ∧
    (r.Header.Get "X-Forwarded-Proto" ≠ "" →
      (addHeaders r cfg).1.Header.Get "X-Forwarded-Proto" =
        r.Header.Get "X-Forwarded-Proto") := by
  rw [addHeaders_ok cfg hp]
  simp only [enrich_Get_forwardedProto r cfg ip hC hT, isWebSocket, isTLS]
  refine ⟨fun h0 => ⟨?_, ?_, ?_, ?_⟩, fun h0 => ?_⟩
  · rintro ⟨hw, ht⟩; simp [h0, hw, ht]
  · rintro ⟨hw, ht⟩; simp [h0, hw, ht]
  · rintro ⟨hw, ht⟩; simp [h0, hw, ht]
  · rintro ⟨hw, ht⟩; simp [h0, hw, ht]
  · simp [h0]

/-- Witness for C1: a WebSocket upgrade over TLS gets `wss`. -/
theorem addHeaders_forwardedProto_matrix_witness :
    SplitHostPort (sampleRequest [("Upgrade", "websocket")] true).RemoteAddr =
        .ok ("1.2.3.4", "5678") ∧
      sparesManaged plainConfig.ClientIPHeader ∧ sparesManaged plainConfig.TLSHeader ∧
      (addHeaders (sampleRequest [("Upgrade", "websocket")] true) plainConfig).1.Header.Get
        "X-Forwarded-Proto" = "wss" :=
  ⟨rfl, by decide, by decide,
    ((addHeaders_forwardedProto_matrix (sampleRequest [("Upgrade", "websocket")] true)
      plainConfig "1.2.3.4" "5678" rfl (by decide) (by decide)).1 (by decide)).1
      ⟨by decide, by decide⟩⟩

/-- C2: under the same conditions on the config, `Forwarded` after
`addHeaders` is `base ++ suffix`: `base` is the value on entry if non-empty and
otherwise `for=<clientIP>; proto=<p>` with `p` from the protocol matrix;
`suffix` is `; by=<LocalIP>` for a non-empty `LocalIP` and empty otherwise.  A
value present on entry is a prefix of the new value. -/
theorem addHeaders_forwarded_value (r : Request) (cfg : Proxy) (ip port : String)
    (hp : SplitHostPort r.RemoteAddr = .ok (ip, port))
    (hC : sparesManaged cfg.ClientIPHeader) (hT : sparesManaged cfg.TLSHeader) :
    (addHeaders r cfg).1.Header.Get "Forwarded" =
        (if r.Header.Get "Forwarded" ≠ "" then r.Header.Get "Forwarded"
          else "for=" ++ ip ++ "; proto=" ++ specProto r) ++
        (if cfg.LocalIP ≠ "" then "; by=" ++ cfg.LocalIP else "") ∧
      (r.Header.Get "Forwarded" ≠ "" →
        ∃ t, (addHeaders r cfg).1.Header.Get "Forwarded" = r.Header.Get "Forwarded" ++ t) := by
  rw [addHeaders_ok cfg hp]
  simp only [enrich_Get_forwarded r cfg ip hC hT, specProto, isWebSocket, isTLS]
  constructor
  · by_cases h0 : r.Header.Get "Forwarded" = ""
    · by_cases hw : r.Header.Get "Upgrade" = "websocket" <;>
        by_cases ht : r.TLS.isSome = true <;>
        simp [h0, hw, ht, String.append_assoc]
    · simp [h0]
  · intro h0
    exact ⟨_, by rw [if_neg h0]⟩

/-- Witness for C2: a plain HTTP request without `Forwarded`. -/
theorem addHeaders_forwarded_value_witness :
    (addHeaders (sampleRequest [] false) plainConfig).1.Header.Get "Forwarded" =
      "for=1.2.3.4; proto=http; by=10.0.0.1" := by
  have h := (addHeaders_forwarded_value (sampleRequest [] false) plainConfig "1.2.3.4" "5678"
    rfl (by decide) (by decide)).1
  rw [h]
  decide

/-! ## `net.SplitHostPort` on well-formed addresses, and the error path -/

theorem indexByteFrom_not_mem (c : Char) :
    ∀ (l : List Char) (i : Nat), c ∉ l → indexByteFrom c l i = -1
  | [], _, _ => rfl
  | x :: xs, i, h => by
    have hx : x ≠ c := fun e => h (by simp [e])
    have hxs : c ∉ xs := fun e => h (by simp [e])
    simp only [indexByteFrom, if_neg hx]
    exact indexByteFrom_not_mem c xs (i + 1) hxs

theorem indexByteFrom_append (c : Char) (l1 l2 : List Char) (h : c ∉ l1) :
    ∀ i : Nat, indexByteFrom c (l1 ++ c :: l2) i = ((i + l1.length : Nat) : Int) := by
  induction l1 with
  | nil => intro i; simp [indexByteFrom]
  | cons x xs ih =>
    intro i
    have hx : x ≠ c := fun e => h (by simp [e])
    have hxs : c ∉ xs := fun e => h (by simp [e])
    simp only [List.cons_append, indexByteFrom, if_neg hx, List.length_cons]
    show indexByteFrom c (xs ++ c :: l2) (i + 1) = _
    rw [ih hxs (i + 1)]
    congr 1
    omega

theorem IndexByteString_not_mem (s : String) (c : Char) (h : c ∉ s.data) :
    IndexByteString s c = -1 :=
  indexByteFrom_not_mem c s.data 0 h

theorem LastIndexByteString_append (l1 l2 : List Char) (c : Char) (h : c ∉ l2) :
    LastIndexByteString (String.mk (l1 ++ c :: l2)) c = (l1.length : Int) := by
  unfold LastIndexByteString
  have hr : (l1 ++ c :: l2).reverse = l2.reverse ++ c :: l1.reverse := by simp
  have h2 : c ∉ l2.reverse := by simpa using h
  simp only [hr, indexByteFrom_append c _ _ h2 0]
  simp only [List.length_append, List.length_cons, List.length_reverse]
  split_ifs with hneg
  · omega
  · push_cast
    omega

theorem splitHostPort_plain (host port : String) (hh : freeOf host [':', '[', ']'])
    (hq : freeOf port [':', '[', ']']) :
    SplitHostPort (host ++ ":" ++ port) = .ok (host, port) := by
  obtain ⟨h⟩ := host
  obtain ⟨p⟩ := port
  simp only [freeOf, List.mem_cons, List.mem_singleton, forall_eq_or_imp, forall_eq,
    List.not_mem_nil, false_implies, implies_true, and_true] at hh hq
  obtain ⟨hh1, hh2, hh3⟩ := hh
  obtain ⟨hq1, hq2, hq3⟩ := hq
  have hs : (String.mk h ++ ":" ++ String.mk p) = String.mk (h ++ ':' :: p) := by
    apply String.ext
    simp [String.data_append]
  rw [hs]
  unfold SplitHostPort
  simp only [LastIndexByteString_append h p ':' hq1]
  have hhead : (h ++ ':' :: p).head? ≠ some '[' := by
    cases h with
    | nil => simp
    | cons x xs =>
      simp only [List.cons_append, List.head?_cons, ne_eq, Option.some.injEq]
      intro e
      exact hh2 (by simp [e])
  have hto : sliceTo (String.mk (h ++ ':' :: p)) (h.length : Int) = String.mk h := by
    simp [sliceTo]
  have hfrom : sliceFrom (String.mk (h ++ ':' :: p)) ((h.length : Int) + 1) = String.mk p := by
    have : ((h.length : Int) + 1).toNat = h.length + 1 := by omega
    simp [sliceFrom, this]
  have h0 : sliceFrom (String.mk (h ++ ':' :: p)) 0 = String.mk (h ++ ':' :: p) := by
    simp [sliceFrom]
  have hb1 : '[' ∉ (String.mk (h ++ ':' :: p)).data := by
    simp [hh2, hq2]
  have hb2 : ']' ∉ (String.mk (h ++ ':' :: p)).data := by
    simp [hh3, hq3]
  simp only [hhead, if_false, hto, IndexByteString_not_mem (String.mk h) ':' hh1,
    splitHostPortTail, h0, IndexByteString_not_mem _ '[' hb1,
    IndexByteString_not_mem _ ']' hb2, hfrom]
  simp

theorem splitHostPort_bracketed (host port : String) (hh : freeOf host ['[', ']'])
    (hq : freeOf port [':', '[', ']']) :
    SplitHostPort ("[" ++ host ++ "]:" ++ port) = .ok (host, port) := by
  obtain ⟨h⟩ := host
  obtain ⟨p⟩ := port
  simp only [freeOf, List.mem_cons, List.mem_singleton, forall_eq_or_imp, forall_eq,
    List.not_mem_nil, false_implies, implies_true, and_true] at hh hq
  obtain ⟨hh2, hh3⟩ := hh
  obtain ⟨hq1, hq2, hq3⟩ := hq
  have hs : ("[" ++ String.mk h ++ "]:" ++ String.mk p) =
      String.mk (('[' :: h ++ [']']) ++ ':' :: p) := by
    apply String.ext
    simp [String.data_append]
  rw [hs]
  unfold SplitHostPort
  simp only [LastIndexByteString_append ('[' :: h ++ [']']) p ':' hq1]
  have he : IndexByteString (String.mk (('[' :: h ++ [']']) ++ ':' :: p)) ']' =
      ((h.length + 1 : Nat) : Int) := by
    have e1 : ('[' :: h ++ [']']) ++ ':' :: p = ('[' :: h) ++ ']' :: (':' :: p) := by simp
    have e2 : ']' ∉ '[' :: h := by simp [hh3]
    unfold IndexByteString
    rw [e1, indexByteFrom_append ']' ('[' :: h) (':' :: p) e2 0]
    simp
  have hlen : ('[' :: h ++ [']']).length = h.length + 2 := by simp
  have hsl : slice (String.mk (('[' :: h ++ [']']) ++ ':' :: p)) 1 ((h.length + 1 : Nat) : Int)
      = String.mk h := by
    simp [slice, List.take_append_eq_append_take]
  have hf1 : '[' ∉ (sliceFrom (String.mk (('[' :: h ++ [']']) ++ ':' :: p)) 1).data := by
    simp [sliceFrom, hh2, hq2]
  have hf2 : ']' ∉ (sliceFrom (String.mk (('[' :: h ++ [']']) ++ ':' :: p))
      (((h.length + 1 : Nat) : Int) + 1)).data := by
    have : (((h.length + 1 : Nat) : Int) + 1).toNat = (h ++ [']']).length + 1 := by
      simp; omega
    simp only [sliceFrom, this]
    have e3 : ('[' :: h ++ [']']) ++ ':' :: p = '[' :: ((h ++ [']']) ++ ':' :: p) := by simp
    rw [e3, List.drop_succ_cons, List.drop_left]
    simp [hq3]
  have hport : sliceFrom (String.mk (('[' :: h ++ [']']) ++ ':' :: p))
      ((('[' :: h ++ [']']).length : Int) + 1) = String.mk p := by
    have : ((('[' :: h ++ [']']).length : Int) + 1).toNat = ('[' :: h ++ [']']).length + 1 := by
      omega
    simp only [sliceFrom, this]
    rw [List.drop_append]
    simp
  have hhead : (('[' :: h ++ [']']) ++ ':' :: p).head? = some '[' := by simp
  simp only [hhead, if_true, he]
  have hlen2 : (('[' :: h ++ [']']) ++ ':' :: p).length = h.length + 3 + p.length := by
    simp; omega
  have c1 : ¬ ((('[' :: h ++ [']']).length : Int) < 0) := by omega
  have c2 : ¬ (((h.length + 1 : Nat) : Int) < 0) := by omega
  have c3 : ¬ (((h.length + 1 : Nat) : Int) + 1 =
      ((('[' :: h ++ [']']) ++ ':' :: p).length : Int)) := by
    rw [hlen2]; omega
  have c4 : ((h.length + 1 : Nat) : Int) + 1 = (('[' :: h ++ [']']).length : Int) := by
    rw [hlen]; omega
  rw [if_neg c1, if_neg c2, if_neg c3, if_pos c4]
  simp only [splitHostPortTail, hsl, IndexByteString_not_mem _ '[' hf1,
    IndexByteString_not_mem _ ']' hf2, hport]
  simp

/-- `net.SplitHostPort` accepts every well-formed address and returns its two
parts. -/
theorem splitHostPort_wellFormed {addr host port : String}
    (hw : WellFormedHostPort addr host port) : SplitHostPort addr = .ok (host, port) := by
  cases hw with
  | plain host port hh hq => exact splitHostPort_plain host port hh hq
  | bracketed host port hh hq => exact splitHostPort_bracketed host port hh hq

/-- C3: `addHeaders` returns an error exactly when `net.SplitHostPort` rejects
the peer address (as it does for `not-an-address`); for every well-formed
`host:port` or `[host]:port` peer address it returns no error; and when it
returns an error the request, and so every header, is as it was. -/
theorem addHeaders_error_iff (r : Request) (cfg : Proxy) :
    ((addHeaders r cfg).2 ≠ none ↔ ∃ why, SplitHostPort r.RemoteAddr = .error why) ∧
      (r.RemoteAddr = "not-an-address" → (addHeaders r cfg).2 ≠ none) ∧
      (∀ host port, WellFormedHostPort r.RemoteAddr host port → (addHeaders r cfg).2 = none) ∧
      ((addHeaders r cfg).2 ≠ none →
        (addHeaders r cfg).1 = r ∧ ∀ k, (addHeaders r cfg).1.Header.Get k = r.Header.Get k) := by
  refine ⟨?_, ?_, ?_, ?_⟩
  · unfold addHeaders
    cases hs : SplitHostPort r.RemoteAddr with
    | error e => simp
    | ok v => simp
  · intro ha
    unfold addHeaders
    rw [ha]
    have : SplitHostPort "not-an-address" = .error "missing port in address" := rfl
    rw [this]
    simp
  · intro host port hw
    rw [addHeaders_ok cfg (splitHostPort_wellFormed hw)]
  · unfold addHeaders
    cases hs : SplitHostPort r.RemoteAddr with
    | error e => simp
    | ok v => simp

/-- Witness for C3: the peer address `not-an-address` is rejected and the
request is returned as it was; the address `[::1]:5678` is accepted. -/
theorem addHeaders_error_iff_witness :
    ((addHeaders { sampleRequest [("X-Real-Ip", "9.9.9.9")] false with
          RemoteAddr := "not-an-address" } plainConfig).2 ≠ none ∧
      (addHeaders { sampleRequest [("X-Real-Ip", "9.9.9.9")] false with
          RemoteAddr := "not-an-address" } plainConfig).1 =
        { sampleRequest [("X-Real-Ip", "9.9.9.9")] false with
          RemoteAddr := "not-an-address" }) ∧
      (addHeaders { sampleRequest [] false with RemoteAddr := "[::1]:5678" } plainConfig).2 =
        none :=
  ⟨⟨(addHeaders_error_iff _ plainConfig).2.1 rfl,
      ((addHeaders_error_iff _ plainConfig).2.2.2
        ((addHeaders_error_iff _ plainConfig).2.1 rfl)).1⟩,
    (addHeaders_error_iff { sampleRequest [] false with RemoteAddr := "[::1]:5678" }
      plainConfig).2.2.1 "::1" "5678"
      (WellFormedHostPort.bracketed "::1" "5678" (by decide) (by decide))⟩

/-! ## The guarded headers for an arbitrary config -/

theorem localPort_header (r : Request) (h : Header) :
    localPort (some { r with Header := h }) = localPort (some r) := rfl

theorem enrich_Get_realIP (r : Request) (cfg : Proxy) (ip : String) :
    (enrich r cfg ip).Get "X-Real-Ip" =
      if tlsWrites cfg r "X-Real-Ip" then cfg.TLSHeaderValue
      else if (if clientIPWrites cfg "X-Real-Ip" then ip else r.Header.Get "X-Real-Ip") = ""
        then ip
      else (if clientIPWrites cfg "X-Real-Ip" then ip else r.Header.Get "X-Real-Ip") := by
  simp only [enrich, Get_setTLSHeader, Get_setForwarded, Get_setForwardedPort,
    Get_setForwardedProto, Get_setForwardedFor, Get_setRealIP, Get_setClientIPHeader,
    canon_realIP, tlsWrites, clientIPWrites]
  simp

theorem enrich_Get_forwardedPort (r : Request) (cfg : Proxy) (ip : String) :
    (enrich r cfg ip).Get "X-Forwarded-Port" =
      if tlsWrites cfg r "X-Forwarded-Port" then cfg.TLSHeaderValue
      else if (if clientIPWrites cfg "X-Forwarded-Port" then ip
          else r.Header.Get "X-Forwarded-Port") = ""
        then localPort (some r)
      else (if clientIPWrites cfg "X-Forwarded-Port" then ip
          else r.Header.Get "X-Forwarded-Port") := by
  simp only [enrich, Get_setTLSHeader, Get_setForwarded, Get_setForwardedPort,
    Get_setForwardedProto, Get_setForwardedFor, Get_setRealIP, Get_setClientIPHeader,
    canon_forwardedPort, tlsWrites, clientIPWrites, localPort_header]
  simp

theorem enrich_Get_upgrade (r : Request) (cfg : Proxy) (ip : String) :
    (enrich r cfg ip).Get "Upgrade" =
      if tlsWrites cfg r "Upgrade" then cfg.TLSHeaderValue
      else if clientIPWrites cfg "Upgrade" then ip else r.Header.Get "Upgrade" := by
  simp only [enrich, Get_setTLSHeader, Get_setForwarded, Get_setForwardedPort,
    Get_setForwardedProto, Get_setForwardedFor, Get_setRealIP, Get_setClientIPHeader,
    canon_upgrade, tlsWrites, clientIPWrites]
  simp

theorem enrich_Get_forwardedProto_any (r : Request) (cfg : Proxy) (ip : String) :
    (enrich r cfg ip).Get "X-Forwarded-Proto" =
      if tlsWrites cfg r "X-Forwarded-Proto" then cfg.TLSHeaderValue
      else if (if clientIPWrites cfg "X-Forwarded-Proto" then ip
          else r.Header.Get "X-Forwarded-Proto") = "" then
        (if ((if clientIPWrites cfg "Upgrade" then ip else r.Header.Get "Upgrade") =
              "websocket") ∧ r.TLS.isSome = true then "wss"
          else if ((if clientIPWrites cfg "Upgrade" then ip else r.Header.Get "Upgrade") =
              "websocket") ∧ r.TLS.isSome = false then "ws"
          else if r.TLS.isSome = true then "https" else "http")
      else (if clientIPWrites cfg "X-Forwarded-Proto" then ip
          else r.Header.Get "X-Forwarded-Proto") := by
  simp only [enrich, Get_setTLSHeader, Get_setForwarded, Get_setForwardedPort,
    Get_setForwardedProto, Get_setForwardedFor, Get_setRealIP, Get_setClientIPHeader,
    canon_forwardedProto, canon_upgrade, tlsWrites, clientIPWrites]
  simp

/-- C4 (as amended): for a request with a parseable peer address and a config
whose `ClientIPHeader` is exactly `X-Real-Ip` or does not name `X-Real-Ip`, and
whose `TLSHeader` does not name `X-Real-Ip` unless the request has no TLS
session, `X-Real-Ip` keeps a value present on entry and is set to the client
IP when absent on entry. -/
theorem addHeaders_realIP (r : Request) (cfg : Proxy) (ip port : String)
    (hp : SplitHostPort r.RemoteAddr = .ok (ip, port))
    (hC : cfg.ClientIPHeader = "X-Real-Ip" ∨
      CanonicalMIMEHeaderKey cfg.ClientIPHeader ≠ "X-Real-Ip")
    (hT : r.TLS = none ∨ CanonicalMIMEHeaderKey cfg.TLSHeader ≠ "X-Real-Ip") :
    (r.Header.Get "X-Real-Ip" ≠ "" →
      (addHeaders r cfg).1.Header.Get "X-Real-Ip" = r.Header.Get "X-Real-Ip") ∧
    (r.Header.Get "X-Real-Ip" = "" → (addHeaders r cfg).1.Header.Get "X-Real-Ip" = ip) := by
  rw [addHeaders_ok cfg hp]
  have hc : ¬ clientIPWrites cfg "X-Real-Ip" := by
    rintro ⟨⟨_, _, h3⟩, h4⟩
    rcases hC with hC | hC
    · exact h3 hC
    · exact hC h4.symm
  have ht : ¬ tlsWrites cfg r "X-Real-Ip" := by
    rintro ⟨⟨_, h2⟩, h3⟩
    rcases hT with hT | hT
    · simp [hT] at h2
    · exact hT h3.symm
  simp only [enrich_Get_realIP, if_neg hc, if_neg ht]
  exact ⟨fun h0 => by rw [if_neg h0], fun h0 => by rw [if_pos h0]⟩

/-- Witness for C4 (as amended): a client-supplied `X-Real-Ip` survives, with a
client-IP header and a TLS header configured under other names. -/
theorem addHeaders_realIP_witness :
    realIPRequest.Header.Get "X-Real-Ip" = "9.9.9.9" ∧
      (addHeaders realIPRequest stampConfig).1.Header.Get "X-Real-Ip" = "9.9.9.9" := by
  have h := (addHeaders_realIP realIPRequest stampConfig "1.2.3.4" "5678" rfl
    (Or.inr (by decide)) (Or.inr (by decide))).1 (by decide)
  refine ⟨by decide, ?_⟩
  rw [h]
  decide

/-- Counterexample to C4 as stated (every config): with `TLSHeader` set to
`X-Real-Ip` on a TLS connection, the `X-Real-Ip: 9.9.9.9` of the request is
replaced by `TLSHeaderValue`. -/
theorem addHeaders_realIP_overwritten :
    SplitHostPort realIPRequest.RemoteAddr = .ok ("1.2.3.4", "5678") ∧
      realIPRequest.Header.Get "X-Real-Ip" = "9.9.9.9" ∧
      (addHeaders realIPRequest tlsRealIPConfig).1.Header.Get "X-Real-Ip" = "on" ∧
      (addHeaders realIPRequest tlsRealIPConfig).1.Header.Get "X-Real-Ip" ≠
        realIPRequest.Header.Get "X-Real-Ip" :=
  ⟨rfl, by decide, by decide, by decide⟩

/-! ## `X-Forwarded-For`, the client-IP header and the TLS header -/

/-- C5: for a request with a parseable peer address and a config whose
`ClientIPHeader` and `TLSHeader` are each empty or name none of the managed
headers: if `Upgrade` is exactly `websocket`, `X-Forwarded-For` after
`addHeaders` is the client IP whatever it was on entry; for any other
`Upgrade` value (`WebSocket`, or absent) it is what it was on entry. -/
theorem addHeaders_forwardedFor (r : Request) (cfg : Proxy) (ip port : String)
    (hp : SplitHostPort r.RemoteAddr = .ok (ip, port))
    (hC : sparesManaged cfg.ClientIPHeader) (hT : sparesManaged cfg.TLSHeader) :
    (r.Header.Get "Upgrade" = "websocket" →
      (addHeaders r cfg).1.Header.Get "X-Forwarded-For" = ip) ∧
    (r.Header.Get "Upgrade" ≠ "websocket" →
      (addHeaders r cfg).1.Header.Get "X-Forwarded-For" = r.Header.Get "X-Forwarded-For") := by
  rw [addHeaders_ok cfg hp]
  simp only [enrich_Get_forwardedFor r cfg ip hC hT]
  exact ⟨fun h0 => by rw [if_pos h0], fun h0 => by rw [if_neg h0]⟩

/-- Witness for C5: `Upgrade: websocket` overwrites a client-supplied
`X-Forwarded-For`, `Upgrade: WebSocket` does not. -/
theorem addHeaders_forwardedFor_witness :
    (addHeaders (sampleRequest [("Upgrade", "websocket"), ("X-Forwarded-For", "7.7.7.7")] false)
        plainConfig).1.Header.Get "X-Forwarded-For" = "1.2.3.4" ∧
      (addHeaders (sampleRequest [("Upgrade", "WebSocket"), ("X-Forwarded-For", "7.7.7.7")] false)
        plainConfig).1.Header.Get "X-Forwarded-For" = "7.7.7.7" := by
  have h1 := (addHeaders_forwardedFor
    (sampleRequest [("Upgrade", "websocket"), ("X-Forwarded-For", "7.7.7.7")] false)
    plainConfig "1.2.3.4" "5678" rfl (by decide) (by decide)).1 (by decide)
  have h2 := (addHeaders_forwardedFor
    (sampleRequest [("Upgrade", "WebSocket"), ("X-Forwarded-For", "7.7.7.7")] false)
    plainConfig "1.2.3.4" "5678" rfl (by decide) (by decide)).2 (by decide)
  refine ⟨h1, ?_⟩
  rw [h2]
  decide

/-- C6: for a request with a parseable peer address and a config whose
`ClientIPHeader` is non-empty, names none of the managed headers and names
another header than `TLSHeader`, the header named `ClientIPHeader` holds the
client IP after `addHeaders`, whatever the client sent in it. -/
theorem addHeaders_clientIPHeader (r : Request) (cfg : Proxy) (ip port : String)
    (hp : SplitHostPort r.RemoteAddr = .ok (ip, port))
    (hne : cfg.ClientIPHeader ≠ "")
    (hC : CanonicalMIMEHeaderKey cfg.ClientIPHeader ∉ managedHeaders)
    (hT : CanonicalMIMEHeaderKey cfg.ClientIPHeader ≠ CanonicalMIMEHeaderKey cfg.TLSHeader) :
    (addHeaders r cfg).1.Header.Get cfg.ClientIPHeader = ip := by
  rw [addHeaders_ok cfg hp]
  simp only [managedHeaders, List.mem_cons, List.mem_singleton, List.not_mem_nil, or_false,
    not_or] at hC
  obtain ⟨_, h2, h3, h4, h5, h6⟩ := hC
  have g1 : cfg.ClientIPHeader ≠ "X-Forwarded-For" := fun e => h3 (by rw [e]; decide)
  have g2 : cfg.ClientIPHeader ≠ "X-Real-Ip" := fun e => h2 (by rw [e]; decide)
  simp only [enrich, Get_setTLSHeader, Get_setForwarded, Get_setForwardedPort,
    Get_setForwardedProto, Get_setForwardedFor, Get_setRealIP, Get_setClientIPHeader]
  simp [hT, h2, h3, h4, h5, h6, hne, g1, g2]

/-- Witness for C6: a client-supplied `X-Client-Ip` is replaced by the peer
IP. -/
theorem addHeaders_clientIPHeader_witness :
    (sampleRequest [("X-Client-Ip", "6.6.6.6")] true).Header.Get "X-Client-Ip" = "6.6.6.6" ∧
      (addHeaders (sampleRequest [("X-Client-Ip", "6.6.6.6")] true) stampConfig).1.Header.Get
        stampConfig.ClientIPHeader = "1.2.3.4" :=
  ⟨by decide,
    addHeaders_clientIPHeader (sampleRequest [("X-Client-Ip", "6.6.6.6")] true) stampConfig
      "1.2.3.4" "5678" rfl (by decide) (by decide) (by decide)⟩

/-- C7: with `ClientIPHeader` equal to `X-Forwarded-For` or `X-Real-Ip` the
first statement does not fire: `addHeaders` yields the same request and the
same error as for the same config with an empty `ClientIPHeader`. -/
theorem addHeaders_reserved_clientIPHeader (r : Request) (cfg : Proxy)
    (hres : cfg.ClientIPHeader = "X-Forwarded-For" ∨ cfg.ClientIPHeader = "X-Real-Ip") :
    addHeaders r cfg = addHeaders r { cfg with ClientIPHeader := "" } := by
  have h1 : ∀ ip h, setClientIPHeader cfg ip h = h := by
    intro ip h
    unfold setClientIPHeader
    rw [if_neg]
    rintro ⟨_, h2, h3⟩
    rcases hres with e | e
    · exact h2 e
    · exact h3 e
  have h2 : ∀ ip h, setClientIPHeader { cfg with ClientIPHeader := "" } ip h = h := by
    intro ip h
    unfold setClientIPHeader
    rw [if_neg]
    rintro ⟨h1, _, _⟩
    exact h1 rfl
  have h3 : ∀ ip, enrich r cfg ip = enrich r { cfg with ClientIPHeader := "" } ip := by
    intro ip
    unfold enrich
    simp only [h1, h2]
    rfl
  unfold addHeaders
  cases SplitHostPort r.RemoteAddr with
  | error e => rfl
  | ok v => simp only [h3]

/-- Witness for C7: `ClientIPHeader = X-Real-Ip` leaves a client-supplied
`X-Real-Ip` alone, as the empty `ClientIPHeader` does. -/
theorem addHeaders_reserved_clientIPHeader_witness :
    addHeaders realIPRequest { plainConfig with ClientIPHeader := "X-Real-Ip" } =
        addHeaders realIPRequest plainConfig ∧
      (addHeaders realIPRequest { plainConfig with ClientIPHeader := "X-Real-Ip" }).1.Header.Get
        "X-Real-Ip" = "9.9.9.9" :=
  ⟨addHeaders_reserved_clientIPHeader realIPRequest
      { plainConfig with ClientIPHeader := "X-Real-Ip" } (Or.inr rfl),
    by decide⟩

/-- C8: for a request with a parseable peer address and a TLS session, and a
config with a non-empty `TLSHeader`, the header named `TLSHeader` holds
`TLSHeaderValue` after `addHeaders`, whatever it held on entry and whatever
the other config fields are. -/
theorem addHeaders_tlsHeader (r : Request) (cfg : Proxy) (ip port : String)
    (hp : SplitHostPort r.RemoteAddr = .ok (ip, port))
    (htls : r.TLS ≠ none) (hne : cfg.TLSHeader ≠ "") :
    (addHeaders r cfg).1.Header.Get cfg.TLSHeader = cfg.TLSHeaderValue := by
  rw [addHeaders_ok cfg hp]
  have hs : r.TLS.isSome = true := by
    cases h : r.TLS with
    | none => exact absurd h htls
    | some v => rfl
  simp only [enrich, Get_setTLSHeader]
  simp [hs, hne]

/-- Witness for C8: a client-supplied `Strict-Transport-Security` is replaced
on a TLS connection. -/
theorem addHeaders_tlsHeader_witness :
    (addHeaders (sampleRequest [("Strict-Transport-Security", "max-age=0")] true)
      stampConfig).1.Header.Get stampConfig.TLSHeader = "max-age=63072000" :=
  addHeaders_tlsHeader (sampleRequest [("Strict-Transport-Security", "max-age=0")] true)
    stampConfig "1.2.3.4" "5678" rfl (by decide) (by decide)

/-! ## Two consecutive calls -/

theorem addHeaders_twice {r : Request} {ip port : String} (cfg : Proxy)
    (hp : SplitHostPort r.RemoteAddr = .ok (ip, port)) :
    addHeaders (addHeaders r cfg).1 cfg =
      ({ r with Header := enrich { r with Header := enrich r cfg ip } cfg ip }, none) := by
  rw [addHeaders_ok cfg hp]
  exact addHeaders_ok (r := { r with Header := enrich r cfg ip }) cfg hp

theorem tlsWrites_header (cfg : Proxy) (r : Request) (h : Header) (k : String) :
    tlsWrites cfg { r with Header := h } k = tlsWrites cfg r k := rfl

theorem proto_ne_empty (a b c : Prop) [Decidable a] [Decidable b] [Decidable c] :
    (if a then "wss" else if b then "ws" else if c then "https" else "http") ≠ "" := by
  split_ifs <;> decide

/-- C9 (as amended): for a request with a parseable peer address and a config
such that `ClientIPHeader` does not name `X-Forwarded-Proto`, or the host part
of the peer address is non-empty, or `TLSHeader` does not name `Upgrade`, a
second `addHeaders` call on the result of the first (which succeeds as well)
leaves `X-Real-Ip`, `X-Forwarded-Proto` and `X-Forwarded-Port` as the first
call left them. -/
theorem addHeaders_twice_guarded (r : Request) (cfg : Proxy) (ip port : String)
    (hp : SplitHostPort r.RemoteAddr = .ok (ip, port))
    (hx : CanonicalMIMEHeaderKey cfg.ClientIPHeader ≠ "X-Forwarded-Proto" ∨ ip ≠ "" ∨
      CanonicalMIMEHeaderKey cfg.TLSHeader ≠ "Upgrade") :
    (addHeaders (addHeaders r cfg).1 cfg).2 = none ∧
      (addHeaders (addHeaders r cfg).1 cfg).1.Header.Get "X-Real-Ip" =
        (addHeaders r cfg).1.Header.Get "X-Real-Ip" ∧
      (addHeaders (addHeaders r cfg).1 cfg).1.Header.Get "X-Forwarded-Proto" =
        (addHeaders r cfg).1.Header.Get "X-Forwarded-Proto" ∧
      (addHeaders (addHeaders r cfg).1 cfg).1.Header.Get "X-Forwarded-Port" =
        (addHeaders r cfg).1.Header.Get "X-Forwarded-Port" := by
  rw [addHeaders_twice cfg hp, addHeaders_ok cfg hp]
  refine ⟨rfl, ?_, ?_, ?_⟩
  · simp only [enrich_Get_realIP, tlsWrites_header]
    by_cases ht : tlsWrites cfg r "X-Real-Ip"
    · simp [ht]
    · by_cases hc : clientIPWrites cfg "X-Real-Ip"
      · simp [ht, hc]
      · by_cases h0 : r.Header.Get "X-Real-Ip" = ""
        · simp [ht, hc, h0]
        · simp [ht, hc, h0]
  · simp only [enrich_Get_forwardedProto_any, enrich_Get_upgrade, tlsWrites_header]
    by_cases ht : tlsWrites cfg r "X-Forwarded-Proto"
    · simp [ht]
    · by_cases hc : clientIPWrites cfg "X-Forwarded-Proto"
      · by_cases hip : ip = ""
        · have hck : CanonicalMIMEHeaderKey cfg.ClientIPHeader = "X-Forwarded-Proto" :=
            hc.2.symm
          have hcu : ¬ clientIPWrites cfg "Upgrade" := by
            rintro ⟨_, h2⟩
            rw [hck] at h2
            exact absurd h2 (by decide)
          have htu : ¬ tlsWrites cfg r "Upgrade" := by
            rintro ⟨_, h2⟩
            rcases hx with hx | hx | hx
            · exact hx hck
            · exact hx hip
            · exact hx h2.symm
          simp [ht, hc, hip, hcu, htu]
        · simp [ht, hc, hip]
      · by_cases h0 : r.Header.Get "X-Forwarded-Proto" = ""
        · simp only [if_neg ht, if_neg hc, if_pos h0, if_neg (proto_ne_empty _ _ _)]
        · simp [ht, hc, h0]
  · simp only [enrich_Get_forwardedPort, tlsWrites_header, localPort_header]
    by_cases ht : tlsWrites cfg r "X-Forwarded-Port"
    · simp [ht]
    · by_cases hc : clientIPWrites cfg "X-Forwarded-Port"
      · simp [ht, hc]
      · by_cases h0 : r.Header.Get "X-Forwarded-Port" = ""
        · simp [ht, hc, h0]
        · simp [ht, hc, h0]

/-- Witness for C9 (as amended): two calls on a TLS websocket request with a
client-IP header and a TLS header configured. -/
theorem addHeaders_twice_guarded_witness :
    (addHeaders (addHeaders (sampleRequest [("Upgrade", "websocket")] true) stampConfig).1
        stampConfig).1.Header.Get "X-Forwarded-Proto" = "wss" ∧
      (addHeaders (addHeaders (sampleRequest [("Upgrade", "websocket")] true) stampConfig).1
        stampConfig).1.Header.Get "X-Real-Ip" = "1.2.3.4" ∧
      (addHeaders (addHeaders (sampleRequest [("Upgrade", "websocket")] true) stampConfig).1
        stampConfig).1.Header.Get "X-Forwarded-Port" = "8080" := by
  have h := addHeaders_twice_guarded (sampleRequest [("Upgrade", "websocket")] true)
    stampConfig "1.2.3.4" "5678" rfl (Or.inl (by decide))
  rw [h.2.1, h.2.2.1, h.2.2.2]
  exact ⟨by decide, by decide, by decide⟩

/-- Counterexample to C9 as stated (every config): the peer address `:80` has an
empty host, `ClientIPHeader` is `X-Forwarded-Proto` and the TLS header is
`Upgrade: websocket`.  The first call resets `X-Forwarded-Proto` to the empty
client IP and fills in `https`; it also sets `Upgrade`, so the second call
sees a websocket request and fills in `wss`. -/
theorem addHeaders_twice_forwardedProto_changes :
    SplitHostPort emptyHostPeerRequest.RemoteAddr = .ok ("", "80") ∧
      (addHeaders emptyHostPeerRequest protoStampConfig).1.Header.Get "X-Forwarded-Proto" =
        "https" ∧
      (addHeaders (addHeaders emptyHostPeerRequest protoStampConfig).1
        protoStampConfig).1.Header.Get "X-Forwarded-Proto" = "wss" :=
  ⟨rfl, by decide, by decide⟩

/-! ## The `by=` part of `Forwarded` -/

theorem append_ne_empty_right (a b : String) (hb : b ≠ "") : a ++ b ≠ "" := by
  intro h
  apply hb
  apply String.ext
  have hd := congrArg String.data h
  rw [String.data_append] at hd
  exact (List.append_eq_nil.mp hd).2

theorem append_ne_self (a b : String) (hb : b ≠ "") : a ++ b ≠ a := by
  intro h
  apply hb
  apply String.ext
  have hd := congrArg (fun s => s.data.length) h
  simp only [String.data_append, List.length_append] at hd
  have hl : b.data.length = 0 := by omega
  exact List.length_eq_zero.mp hl

/-- C10: for a request with a parseable peer address and a config with a
non-empty `LocalIP` whose `ClientIPHeader` and `TLSHeader` are each empty or
name none of the managed headers, `Forwarded` after two consecutive
`addHeaders` calls is `Forwarded` after one call followed by
`; by=<LocalIP>`, and so differs from it. -/
theorem addHeaders_twice_forwarded (r : Request) (cfg : Proxy) (ip port : String)
    (hp : SplitHostPort r.RemoteAddr = .ok (ip, port))
    (hL : cfg.LocalIP ≠ "")
    (hC : sparesManaged cfg.ClientIPHeader) (hT : sparesManaged cfg.TLSHeader) :
    (addHeaders (addHeaders r cfg).1 cfg).1.Header.Get "Forwarded" =
        (addHeaders r cfg).1.Header.Get "Forwarded" ++ "; by=" ++ cfg.LocalIP ∧
      (addHeaders (addHeaders r cfg).1 cfg).1.Header.Get "Forwarded" ≠
        (addHeaders r cfg).1.Header.Get "Forwarded" := by
  rw [addHeaders_twice cfg hp, addHeaders_ok cfg hp]
  have hby : "; by=" ++ cfg.LocalIP ≠ "" := append_ne_empty_right _ _ hL
  have h1 : (enrich r cfg ip).Get "Forwarded" ≠ "" := by
    rw [enrich_Get_forwarded r cfg ip hC hT, if_pos hL]
    exact append_ne_empty_right _ _ hby
  have h2 : (enrich { r with Header := enrich r cfg ip } cfg ip).Get "Forwarded" =
      (enrich r cfg ip).Get "Forwarded" ++ ("; by=" ++ cfg.LocalIP) := by
    rw [enrich_Get_forwarded { r with Header := enrich r cfg ip } cfg ip hC hT, if_pos hL]
    simp only [h1, if_false]
  refine ⟨?_, ?_⟩
  · simp only [h2, String.append_assoc]
  · simp only []
    rw [h2]
    exact append_ne_self _ _ hby

/-- Witness for C10: the `by=` part is there twice after two calls. -/
theorem addHeaders_twice_forwarded_witness :
    (addHeaders (sampleRequest [] false) plainConfig).1.Header.Get "Forwarded" =
        "for=1.2.3.4; proto=http; by=10.0.0.1" ∧
      (addHeaders (addHeaders (sampleRequest [] false) plainConfig).1
        plainConfig).1.Header.Get "Forwarded" =
        "for=1.2.3.4; proto=http; by=10.0.0.1; by=10.0.0.1" := by
  have h := (addHeaders_twice_forwarded (sampleRequest [] false) plainConfig "1.2.3.4" "5678"
    rfl (by decide) (by decide) (by decide)).1
  have h1 : (addHeaders (sampleRequest [] false) plainConfig).1.Header.Get "Forwarded" =
      "for=1.2.3.4; proto=http; by=10.0.0.1" := by decide
  refine ⟨h1, ?_⟩
  rw [h, h1]
  decide

/-! ## `localPort` -/

theorem indexByteFrom_spec (c : Char) (l : List Char) :
    ∀ i : Nat, (c ∉ l ∧ indexByteFrom c l i = -1) ∨
      ∃ l1 l2, l = l1 ++ c :: l2 ∧ c ∉ l1 ∧
        indexByteFrom c l i = ((i + l1.length : Nat) : Int) := by
  induction l with
  | nil => intro i; exact Or.inl ⟨by simp, rfl⟩
  | cons x xs ih =>
    intro i
    by_cases hx : x = c
    · refine Or.inr ⟨[], xs, by simp [hx], by simp, ?_⟩
      simp [indexByteFrom, hx]
    · rcases ih (i + 1) with ⟨hn, he⟩ | ⟨l1, l2, hl, hn, he⟩
      · refine Or.inl ⟨?_, ?_⟩
        · simp only [List.mem_cons, not_or]
          exact ⟨fun e => hx e.symm, hn⟩
        · simp only [indexByteFrom, if_neg hx]
          exact he
      · refine Or.inr ⟨x :: l1, l2, by simp [hl], ?_, ?_⟩
        · simp only [List.mem_cons, not_or]
          exact ⟨fun e => hx e.symm, hn⟩
        · simp only [indexByteFrom, if_neg hx, List.length_cons]
          rw [he]
          congr 1
          omega

theorem localPort_of_no_colon (r : Request) (h : ':' ∉ r.Host.data) :
    localPort (some r) = if r.TLS.isSome then "443" else "80" := by
  unfold localPort
  simp only [IndexByteString_not_mem r.Host ':' h]
  rw [if_neg (by omega)]

theorem localPort_of_split (r : Request) (a b : List Char)
    (hh : r.Host = String.mk (a ++ ':' :: b)) (ha : ':' ∉ a) :
    localPort (some r) =
      if a ≠ [] ∧ b ≠ [] then String.mk b else if r.TLS.isSome then "443" else "80" := by
  unfold localPort
  have hi : IndexByteString r.Host ':' = (a.length : Int) := by
    unfold IndexByteString
    rw [hh, indexByteFrom_append ':' a b ha 0]
    simp
  have hl : r.Host.data.length = a.length + 1 + b.length := by
    rw [hh]; simp; omega
  simp only [hi, hl]
  by_cases hab : a ≠ [] ∧ b ≠ []
  · have h1 : 0 < a.length := List.length_pos.mpr hab.1
    have h2 : 0 < b.length := List.length_pos.mpr hab.2
    have hg : (a.length : Int) > 0 ∧ (a.length : Int) < ((a.length + 1 + b.length : Nat) : Int) - 1 := by
      constructor <;> omega
    rw [if_pos hg, if_pos hab]
    have ht : ((a.length : Int) + 1).toNat = a.length + 1 := by omega
    simp only [sliceFrom, ht, hh]
    rw [List.drop_append]
    simp
  · have hg : ¬ ((a.length : Int) > 0 ∧
        (a.length : Int) < ((a.length + 1 + b.length : Nat) : Int) - 1) := by
      rintro ⟨g1, g2⟩
      apply hab
      constructor
      · intro e; rw [e] at g1; simp at g1
      · intro e; rw [e] at g2; simp at g2
    rw [if_neg hg, if_neg hab]

theorem string_split_data {s a b : String} (h : s = a ++ ":" ++ b) :
    s = String.mk (a.data ++ ':' :: b.data) := by
  rw [h]
  apply String.ext
  simp [String.data_append]

theorem string_ne_empty_data {s : String} (h : s ≠ "") : s.data ≠ [] := by
  intro e
  apply h
  apply String.ext
  exact e

/-- C11: for a request (not `nil`) whose host holds at most one colon,
`localPort` returns the text after the colon when the colon is neither the
first nor the last character of the host, and otherwise `443` with TLS and `80`
without. -/
theorem localPort_single_colon (r : Request) (h1 : r.Host.data.count ':' ≤ 1) :
    (∀ a b : String, r.Host = a ++ ":" ++ b → a ≠ "" → b ≠ "" → localPort (some r) = b) ∧
      ((¬ ∃ a b : String, r.Host = a ++ ":" ++ b ∧ a ≠ "" ∧ b ≠ "") →
        localPort (some r) = if r.TLS.isSome then "443" else "80") := by
  constructor
  · intro a b hh ha hb
    have hd := string_split_data hh
    have hc : ':' ∉ a.data := by
      rw [hd] at h1
      simp only [List.count_append, List.count_cons_self] at h1
      have h0 : a.data.count ':' = 0 := by omega
      exact List.count_eq_zero.mp h0
    rw [localPort_of_split r a.data b.data hd hc,
      if_pos ⟨string_ne_empty_data ha, string_ne_empty_data hb⟩]
  · intro hno
    rcases indexByteFrom_spec ':' r.Host.data 0 with ⟨hn, _⟩ | ⟨l1, l2, hl, hn, _⟩
    · exact localPort_of_no_colon r hn
    · have hh : r.Host = String.mk (l1 ++ ':' :: l2) := String.ext hl
      rw [localPort_of_split r l1 l2 hh hn, if_neg]
      rintro ⟨g1, g2⟩
      apply hno
      refine ⟨String.mk l1, String.mk l2, ?_, ?_, ?_⟩
      · rw [hh]
        apply String.ext
        simp [String.data_append]
      · intro e; exact g1 (congrArg String.data e)
      · intro e; exact g2 (congrArg String.data e)

/-- Witness for C11: `example.com:8080` gives `8080`; `example.com` gives `443`
with TLS and `80` without. -/
theorem localPort_single_colon_witness :
    localPort (some (hostRequest "example.com:8080" false)) = "8080" ∧
      localPort (some (hostRequest "example.com" true)) = "443" ∧
      localPort (some (hostRequest "example.com" false)) = "80" := by
  have hno : ∀ tls, ¬ ∃ a b : String,
      (hostRequest "example.com" tls).Host = a ++ ":" ++ b ∧ a ≠ "" ∧ b ≠ "" := by
    rintro tls ⟨a, b, hh, _, _⟩
    have hm : ':' ∈ ("example.com" : String).data := by
      have e : (hostRequest "example.com" tls).Host = "example.com" := rfl
      rw [e] at hh
      rw [string_split_data hh]
      simp
    revert hm
    decide
  refine ⟨(localPort_single_colon (hostRequest "example.com:8080" false) (by decide)).1
      "example.com" "8080" (by decide) (by decide) (by decide), ?_, ?_⟩
  · rw [(localPort_single_colon (hostRequest "example.com" true) (by decide)).2 (hno true)]
    decide
  · rw [(localPort_single_colon (hostRequest "example.com" false) (by decide)).2 (hno false)]
    decide

/-- C12 (code defect): the host `[::1]:` ends with a colon, and `localPort`
returns `:1]:`, the text after the first colon, instead of the default `80`
(`443` with TLS); on the same path the host `[::1]:8080` gives `:1]:8080`
instead of `8080`.  A host whose only colon is the last character, such as
`example.com:`, does fall back to the default. -/
theorem localPort_trailing_colon_ipv6 :
    localPort (some (hostRequest "[::1]:" false)) = ":1]:" ∧
      localPort (some (hostRequest "[::1]:" true)) = ":1]:" ∧
      localPort (some (hostRequest "[::1]:8080" false)) = ":1]:8080" ∧
      localPort (some (hostRequest "example.com:" false)) = "80" ∧
      localPort (some (hostRequest "example.com:" true)) = "443" :=
  ⟨by decide, by decide, by decide, by decide, by decide⟩

/-- C13 (as amended): for a request with a parseable peer address and no
`X-Forwarded-Port` on entry, a config whose `ClientIPHeader` and `TLSHeader` do
not name `X-Forwarded-Port`, and a host `prefix ++ ":" ++ p` with a non-empty
`prefix` that holds no colon and a non-empty string of decimal digits `p`,
`X-Forwarded-Port` after `addHeaders` is `p`, and so holds decimal digits
only. -/
theorem addHeaders_forwardedPort_digits (r : Request) (cfg : Proxy) (ip port : String)
    (pre p : String)
    (hp : SplitHostPort r.RemoteAddr = .ok (ip, port))
    (h0 : r.Header.Get "X-Forwarded-Port" = "")
    (hC : CanonicalMIMEHeaderKey cfg.ClientIPHeader ≠ "X-Forwarded-Port")
    (hT : CanonicalMIMEHeaderKey cfg.TLSHeader ≠ "X-Forwarded-Port")
    (hh : r.Host = pre ++ ":" ++ p)
    (hpre : pre ≠ "") (hcol : ':' ∉ pre.data)
    (hne : p ≠ "") (hdig : ∀ c ∈ p.data, c.isDigit = true) :
    (addHeaders r cfg).1.Header.Get "X-Forwarded-Port" = p ∧
      ∀ c ∈ ((addHeaders r cfg).1.Header.Get "X-Forwarded-Port").data, c.isDigit = true := by
  have hc : ¬ clientIPWrites cfg "X-Forwarded-Port" := fun h => hC h.2.symm
  have ht : ¬ tlsWrites cfg r "X-Forwarded-Port" := fun h => hT h.2.symm
  have hv : (addHeaders r cfg).1.Header.Get "X-Forwarded-Port" = p := by
    rw [addHeaders_ok cfg hp]
    simp only [enrich_Get_forwardedPort, if_neg hc, if_neg ht, h0, if_true]
    rw [localPort_of_split r pre.data p.data (string_split_data hh) hcol,
      if_pos ⟨string_ne_empty_data hpre, string_ne_empty_data hne⟩]
  exact ⟨hv, by rw [hv]; exact hdig⟩

/-- Witness for C13 (as amended): the host `example.com:8080` gives the port
`8080`. -/
theorem addHeaders_forwardedPort_digits_witness :
    (addHeaders (hostRequest "example.com:8080" true) stampConfig).1.Header.Get
      "X-Forwarded-Port" = "8080" :=
  (addHeaders_forwardedPort_digits (hostRequest "example.com:8080" true) stampConfig
    "1.2.3.4" "5678" "example.com" "8080" rfl (by decide) (by decide) (by decide) (by decide)
    (by decide) (by decide) (by decide) (by decide)).1

/-- Counterexample to C13 as stated (any prefix): the host `:8080` is
`"" ++ ":" ++ "8080"`, the colon is its first character, and
`X-Forwarded-Port` becomes the default `80`, not `8080`. -/
theorem addHeaders_forwardedPort_leading_colon :
    SplitHostPort (hostRequest ":8080" false).RemoteAddr = .ok ("1.2.3.4", "5678") ∧
      (hostRequest ":8080" false).Header.Get "X-Forwarded-Port" = "" ∧
      (hostRequest ":8080" false).Host = "" ++ ":" ++ "8080" ∧
      (addHeaders (hostRequest ":8080" false) plainConfig).1.Header.Get "X-Forwarded-Port" =
        "80" :=
  ⟨rfl, by decide, by decide, by decide⟩

/-- C14 (as amended): for a request whose host string is empty, `localPort`
returns `443` with TLS and `80` without (the empty string is what it returns
for a `nil` request); and `addHeaders`, for a parseable peer address, no
`X-Forwarded-Port` on entry and a config whose `ClientIPHeader` and `TLSHeader`
do not name `X-Forwarded-Port`, sets `X-Forwarded-Port` to that default. -/
theorem localPort_empty_host (r : Request) (cfg : Proxy) (hh : r.Host = "") :
    localPort (some r) = (if r.TLS.isSome then "443" else "80") ∧
      localPort none = "" ∧
      (∀ ip port, SplitHostPort r.RemoteAddr = .ok (ip, port) →
        r.Header.Get "X-Forwarded-Port" = "" →
        CanonicalMIMEHeaderKey cfg.ClientIPHeader ≠ "X-Forwarded-Port" →
        CanonicalMIMEHeaderKey cfg.TLSHeader ≠ "X-Forwarded-Port" →
        (addHeaders r cfg).1.Header.Get "X-Forwarded-Port" =
          if r.TLS.isSome then "443" else "80") := by
  have hl : localPort (some r) = (if r.TLS.isSome then "443" else "80") :=
    localPort_of_no_colon r (by rw [hh]; decide)
  refine ⟨hl, rfl, ?_⟩
  intro ip port hp h0 hC hT
  have hc : ¬ clientIPWrites cfg "X-Forwarded-Port" := fun h => hC h.2.symm
  have ht : ¬ tlsWrites cfg r "X-Forwarded-Port" := fun h => hT h.2.symm
  rw [addHeaders_ok cfg hp]
  simp only [enrich_Get_forwardedPort, if_neg hc, if_neg ht, h0, if_true]
  exact hl

/-- Witness for C14 (as amended): an empty host on a TLS connection gives
`443`. -/
theorem localPort_empty_host_witness :
    localPort (some (hostRequest "" true)) = "443" ∧
      (addHeaders (hostRequest "" true) plainConfig).1.Header.Get "X-Forwarded-Port" =
        "443" := by
  have h := localPort_empty_host (hostRequest "" true) plainConfig rfl
  refine ⟨?_, ?_⟩
  · rw [h.1]; decide
  · rw [h.2.2 "1.2.3.4" "5678" rfl (by decide) (by decide) (by decide)]; decide

/-- Counterexample to C14 as stated: for the empty host without TLS `localPort`
returns `80`, not the empty string, and `addHeaders` sets `X-Forwarded-Port` to
`80`. -/
theorem localPort_empty_host_not_empty :
    (hostRequest "" false).Host = "" ∧
      localPort (some (hostRequest "" false)) = "80" ∧
      localPort (some (hostRequest "" false)) ≠ "" ∧
      (hostRequest "" false).Header.Get "X-Forwarded-Port" = "" ∧
      (addHeaders (hostRequest "" false) plainConfig).1.Header.Get "X-Forwarded-Port" =
        "80" :=
  ⟨rfl, by decide, by decide, by decide, by decide⟩

/-! ## `X-Forwarded-Proto` against the proto token of `Forwarded` -/

theorem enrich_Get_forwarded_any (r : Request) (cfg : Proxy) (ip : String) :
    (enrich r cfg ip).Get "Forwarded" =
      if tlsWrites cfg r "Forwarded" then cfg.TLSHeaderValue
      else
        (if (if clientIPWrites cfg "Forwarded" then ip else r.Header.Get "Forwarded") = "" then
          (if ((if clientIPWrites cfg "Upgrade" then ip else r.Header.Get "Upgrade") =
                "websocket") ∧ r.TLS.isSome = true then "for=" ++ ip ++ "; proto=wss"
            else if ((if clientIPWrites cfg "Upgrade" then ip else r.Header.Get "Upgrade") =
                "websocket") ∧ r.TLS.isSome = false then "for=" ++ ip ++ "; proto=ws"
            else if r.TLS.isSome = true then "for=" ++ ip ++ "; proto=https"
            else "for=" ++ ip ++ "; proto=http")
        else (if clientIPWrites cfg "Forwarded" then ip else r.Header.Get "Forwarded")) ++
        (if cfg.LocalIP ≠ "" then "; by=" ++ cfg.LocalIP else "") := by
  simp only [enrich, forwardedBase, Get_setTLSHeader, Get_setForwarded, Get_setForwardedPort,
    Get_setForwardedProto, Get_setForwardedFor, Get_setRealIP, Get_setClientIPHeader,
    canon_forwarded, canon_upgrade, tlsWrites, clientIPWrites]
  by_cases hL : cfg.LocalIP = "" <;> simp [hL]

theorem takeWhile_append_stop (f : Char → Bool) (l1 l2 : List Char)
    (h1 : ∀ c ∈ l1, f c = true) (h2 : l2.takeWhile f = []) :
    (l1 ++ l2).takeWhile f = l1 := by
  induction l1 with
  | nil => simpa using h2
  | cons x xs ih =>
    have hx : f x = true := h1 x (by simp)
    have hxs : ∀ c ∈ xs, f c = true := fun c hc => h1 c (by simp [hc])
    simp only [List.cons_append, List.takeWhile_cons_of_pos hx, ih hxs]

/-- The proto token of `for=<ip>; proto=<m><rest>` is `m` when `m` holds no
semicolon and `rest` is empty or starts with one. -/
theorem synthProtoToken_eq (ip m rest : String) (hm : ∀ c ∈ m.data, (c != ';') = true)
    (hr : rest.data.takeWhile (fun c => c != ';') = []) :
    synthProtoToken ip ("for=" ++ ip ++ "; proto=" ++ m ++ rest) = m := by
  unfold synthProtoToken
  have hd : ("for=" ++ ip ++ "; proto=" ++ m ++ rest).data =
      ("for=" ++ ip ++ "; proto=").data ++ (m.data ++ rest.data) := by
    simp [String.data_append]
  rw [hd]
  have hpre : (("for=" ++ ip ++ "; proto=").data).isPrefixOf
      (("for=" ++ ip ++ "; proto=").data ++ (m.data ++ rest.data)) = true := by
    rw [List.isPrefixOf_iff_prefix]
    exact List.prefix_append _ _
  rw [if_pos hpre, List.drop_left, takeWhile_append_stop _ _ _ hm hr]

/-- C15 (as amended): for a request with a parseable peer address whose
`Forwarded` and `X-Forwarded-Proto` headers are both absent on entry, and a
config whose `ClientIPHeader` and `TLSHeader` name neither of the two, the
synthesized `Forwarded` value is `for=<clientIP>; proto=<X-Forwarded-Proto>`
followed by the `by=` part, so its proto token equals the `X-Forwarded-Proto`
header. -/
theorem addHeaders_proto_consistent (r : Request) (cfg : Proxy) (ip port : String)
    (hp : SplitHostPort r.RemoteAddr = .ok (ip, port))
    (hF : r.Header.Get "Forwarded" = "") (hX : r.Header.Get "X-Forwarded-Proto" = "")
    (hC1 : CanonicalMIMEHeaderKey cfg.ClientIPHeader ≠ "X-Forwarded-Proto")
    (hC2 : CanonicalMIMEHeaderKey cfg.ClientIPHeader ≠ "Forwarded")
    (hT1 : CanonicalMIMEHeaderKey cfg.TLSHeader ≠ "X-Forwarded-Proto")
    (hT2 : CanonicalMIMEHeaderKey cfg.TLSHeader ≠ "Forwarded") :
    (addHeaders r cfg).1.Header.Get "Forwarded" =
        "for=" ++ ip ++ "; proto=" ++ (addHeaders r cfg).1.Header.Get "X-Forwarded-Proto" ++
          (if cfg.LocalIP ≠ "" then "; by=" ++ cfg.LocalIP else "") ∧
      synthProtoToken ip ((addHeaders r cfg).1.Header.Get "Forwarded") =
        (addHeaders r cfg).1.Header.Get "X-Forwarded-Proto" := by
  have c1 : ¬ clientIPWrites cfg "X-Forwarded-Proto" := fun h => hC1 h.2.symm
  have c2 : ¬ clientIPWrites cfg "Forwarded" := fun h => hC2 h.2.symm
  have t1 : ¬ tlsWrites cfg r "X-Forwarded-Proto" := fun h => hT1 h.2.symm
  have t2 : ¬ tlsWrites cfg r "Forwarded" := fun h => hT2 h.2.symm
  have hrest : (if cfg.LocalIP ≠ "" then "; by=" ++ cfg.LocalIP else "").data.takeWhile
      (fun c => c != ';') = [] := by
    by_cases hL : cfg.LocalIP = ""
    · simp [hL]
    · simp [hL, String.data_append]
  have key : ∀ m : String, (∀ c ∈ m.data, (c != ';') = true) →
      (enrich r cfg ip).Get "X-Forwarded-Proto" = m →
      (enrich r cfg ip).Get "Forwarded" =
        "for=" ++ ip ++ "; proto=" ++ m ++
          (if cfg.LocalIP ≠ "" then "; by=" ++ cfg.LocalIP else "") →
      (enrich r cfg ip).Get "Forwarded" =
          "for=" ++ ip ++ "; proto=" ++ (enrich r cfg ip).Get "X-Forwarded-Proto" ++
            (if cfg.LocalIP ≠ "" then "; by=" ++ cfg.LocalIP else "") ∧
        synthProtoToken ip ((enrich r cfg ip).Get "Forwarded") =
          (enrich r cfg ip).Get "X-Forwarded-Proto" := by
    intro m hm hx hf
    rw [hx, hf]
    exact ⟨rfl, synthProtoToken_eq ip m _ hm hrest⟩
  rw [addHeaders_ok cfg hp]
  have hxp := enrich_Get_forwardedProto_any r cfg ip
  have hfw := enrich_Get_forwarded_any r cfg ip
  simp only [if_neg c1, if_neg t1, hX, if_true] at hxp
  simp only [if_neg c2, if_neg t2, hF, if_true] at hfw
  by_cases hw : (if clientIPWrites cfg "Upgrade" then ip else r.Header.Get "Upgrade") =
      "websocket"
  · by_cases ht : r.TLS.isSome = true
    · simp only [hw, ht, and_self, if_true] at hxp hfw
      exact key "wss" (by decide) hxp (by rw [hfw]; simp [String.append_assoc])
    · have ht2 : r.TLS.isSome = false := by simpa using ht
      simp only [hw, ht, ht2, and_false, and_self, if_false, if_true] at hxp hfw
      exact key "ws" (by decide) hxp (by rw [hfw]; simp [String.append_assoc])
  · by_cases ht : r.TLS.isSome = true
    · simp only [hw, ht, false_and, if_false, if_true] at hxp hfw
      exact key "https" (by decide) hxp (by rw [hfw]; simp [String.append_assoc])
    · simp only [hw, ht, false_and, if_false] at hxp hfw
      exact key "http" (by decide) hxp (by rw [hfw]; simp [String.append_assoc])

/-- Witness for C15 (as amended): a TLS websocket request gets `wss` in both
places. -/
theorem addHeaders_proto_consistent_witness :
    (addHeaders (sampleRequest [("Upgrade", "websocket")] true) plainConfig).1.Header.Get
        "X-Forwarded-Proto" = "wss" ∧
      synthProtoToken "1.2.3.4"
        ((addHeaders (sampleRequest [("Upgrade", "websocket")] true) plainConfig).1.Header.Get
          "Forwarded") = "wss" := by
  have h := (addHeaders_proto_consistent (sampleRequest [("Upgrade", "websocket")] true)
    plainConfig "1.2.3.4" "5678" rfl (by decide) (by decide) (by decide) (by decide)
    (by decide) (by decide)).2
  have hx : (addHeaders (sampleRequest [("Upgrade", "websocket")] true)
      plainConfig).1.Header.Get "X-Forwarded-Proto" = "wss" := by decide
  refine ⟨hx, ?_⟩
  rw [h, hx]

/-- Counterexample to C15 as stated (whether or not `X-Forwarded-Proto` was
present): a plain HTTP request that carries `X-Forwarded-Proto: https` and no
`Forwarded` keeps `https`, while the synthesized `Forwarded` says
`proto=http`. -/
theorem addHeaders_proto_inconsistent :
    SplitHostPort (sampleRequest [("X-Forwarded-Proto", "https")] false).RemoteAddr =
        .ok ("1.2.3.4", "5678") ∧
      (sampleRequest [("X-Forwarded-Proto", "https")] false).Header.Get "Forwarded" = "" ∧
      (addHeaders (sampleRequest [("X-Forwarded-Proto", "https")] false)
        plainConfig).1.Header.Get "X-Forwarded-Proto" = "https" ∧
      (addHeaders (sampleRequest [("X-Forwarded-Proto", "https")] false)
        plainConfig).1.Header.Get "Forwarded" = "for=1.2.3.4; proto=http; by=10.0.0.1" ∧
      synthProtoToken "1.2.3.4" ((addHeaders (sampleRequest [("X-Forwarded-Proto", "https")]
        false) plainConfig).1.Header.Get "Forwarded") = "http" :=
  ⟨rfl, by decide, by decide, by decide, by decide⟩

/-! ## Frame: what `addHeaders` leaves alone -/

theorem Header.Get_congr (h : Header) {k k1 : String}
    (e : CanonicalMIMEHeaderKey k = CanonicalMIMEHeaderKey k1) : h.Get k = h.Get k1 := by
  unfold Header.Get
  rw [e]

theorem vals_Set_ne (h : Header) (k v key : String) (hne : key ≠ CanonicalMIMEHeaderKey k) :
    (h.Set k v).vals key = h.vals key := by
  simp [Header.Set, hne]

theorem not_mem_forwardingHeaders {key : String} (h5 : key ∉ forwardingHeaders) :
    key ≠ "X-Real-Ip" ∧ key ≠ "X-Forwarded-For" ∧ key ≠ "X-Forwarded-Proto" ∧
      key ≠ "X-Forwarded-Port" ∧ key ≠ "Forwarded" := by
  simpa [forwardingHeaders, not_or] using h5

/-- The value list stored under a key that is none of the five forwarding
headers and is written neither by the client-IP statement nor by the TLS
statement is the same before and after. -/
theorem enrich_vals_frame (r : Request) (cfg : Proxy) (ip key : String)
    (h5 : key ∉ forwardingHeaders) (hC : ¬ clientIPWrites cfg key)
    (hT : ¬ tlsWrites cfg r key) :
    (enrich r cfg ip).vals key = r.Header.vals key := by
  obtain ⟨k1, k2, k3, k4, k5⟩ := not_mem_forwardingHeaders h5
  have s1 : ∀ h, (setClientIPHeader cfg ip h).vals key = h.vals key := by
    intro h
    unfold setClientIPHeader
    split
    · next hg => exact vals_Set_ne h _ _ key (fun e => hC ⟨hg, e⟩)
    · rfl
  have s2 : ∀ h, (setRealIP ip h).vals key = h.vals key := by
    intro h
    unfold setRealIP
    split
    · exact vals_Set_ne h _ _ key (by rw [canon_realIP]; exact k1)
    · rfl
  have s3 : ∀ ws h, (setForwardedFor ws ip h).vals key = h.vals key := by
    intro ws h
    unfold setForwardedFor
    split
    · exact vals_Set_ne h _ _ key (by rw [canon_forwardedFor]; exact k2)
    · rfl
  have s4 : ∀ ws tls h, (setForwardedProto ws tls h).vals key = h.vals key := by
    intro ws tls h
    unfold setForwardedProto
    split_ifs <;> first
      | rfl
      | exact vals_Set_ne h _ _ key (by rw [canon_forwardedProto]; exact k3)
  have s5 : ∀ h, (setForwardedPort r h).vals key = h.vals key := by
    intro h
    unfold setForwardedPort
    split
    · exact vals_Set_ne h _ _ key (by rw [canon_forwardedPort]; exact k4)
    · rfl
  have s6 : ∀ ws tls h, (setForwarded cfg ws tls ip h).vals key = h.vals key := by
    intro ws tls h
    unfold setForwarded
    exact vals_Set_ne h _ _ key (by rw [canon_forwarded]; exact k5)
  have s7 : ∀ h, (setTLSHeader cfg r.TLS.isSome h).vals key = h.vals key := by
    intro h
    unfold setTLSHeader
    split
    · next hg => exact vals_Set_ne h _ _ key (fun e => hT ⟨hg, e⟩)
    · rfl
  unfold enrich
  simp only [s7, s6, s5, s4, s3, s2, s1]

theorem enrich_Get_frame (r : Request) (cfg : Proxy) (ip k : String)
    (h5 : CanonicalMIMEHeaderKey k ∉ forwardingHeaders)
    (hC : ¬ clientIPWrites cfg (CanonicalMIMEHeaderKey k))
    (hT : ¬ tlsWrites cfg r (CanonicalMIMEHeaderKey k)) :
    (enrich r cfg ip).Get k = r.Header.Get k := by
  unfold Header.Get
  rw [enrich_vals_frame r cfg ip _ h5 hC hT]

theorem enrich_Get_forwardedFor_any (r : Request) (cfg : Proxy) (ip : String) :
    (enrich r cfg ip).Get "X-Forwarded-For" =
      if tlsWrites cfg r "X-Forwarded-For" then cfg.TLSHeaderValue
      else if (if clientIPWrites cfg "Upgrade" then ip else r.Header.Get "Upgrade") =
          "websocket" then ip
      else if clientIPWrites cfg "X-Forwarded-For" then ip
      else r.Header.Get "X-Forwarded-For" := by
  simp only [enrich, Get_setTLSHeader, Get_setForwarded, Get_setForwardedPort,
    Get_setForwardedProto, Get_setForwardedFor, Get_setRealIP, Get_setClientIPHeader,
    canon_forwardedFor, canon_upgrade, tlsWrites, clientIPWrites]
  simp

/-- C16 (as amended): for a request with a parseable peer address and any
config, a header present on entry whose name (after canonicalisation) is none
of `Forwarded`, `X-Forwarded-For`, the configured `ClientIPHeader` and the
configured `TLSHeader` has the same value after `addHeaders`;
`X-Forwarded-For` is kept when `Upgrade` is not `websocket` on entry and
neither config name is `X-Forwarded-For` nor `ClientIPHeader` names `Upgrade`;
and a `Forwarded` value present on entry, with neither config name being
`Forwarded`, changes only by the appended `; by=<LocalIP>`. -/
theorem addHeaders_present_kept (r : Request) (cfg : Proxy) (ip port : String)
    (hp : SplitHostPort r.RemoteAddr = .ok (ip, port)) :
    (∀ k : String, CanonicalMIMEHeaderKey k ≠ "Forwarded" →
        CanonicalMIMEHeaderKey k ≠ "X-Forwarded-For" →
        CanonicalMIMEHeaderKey k ≠ CanonicalMIMEHeaderKey cfg.ClientIPHeader →
        CanonicalMIMEHeaderKey k ≠ CanonicalMIMEHeaderKey cfg.TLSHeader →
        r.Header.Get k ≠ "" →
        (addHeaders r cfg).1.Header.Get k = r.Header.Get k) ∧
      (r.Header.Get "Upgrade" ≠ "websocket" →
        CanonicalMIMEHeaderKey cfg.ClientIPHeader ≠ "Upgrade" →
        CanonicalMIMEHeaderKey cfg.ClientIPHeader ≠ "X-Forwarded-For" →
        CanonicalMIMEHeaderKey cfg.TLSHeader ≠ "X-Forwarded-For" →
        (addHeaders r cfg).1.Header.Get "X-Forwarded-For" =
          r.Header.Get "X-Forwarded-For") ∧
      (r.Header.Get "Forwarded" ≠ "" →
        CanonicalMIMEHeaderKey cfg.ClientIPHeader ≠ "Forwarded" →
        CanonicalMIMEHeaderKey cfg.TLSHeader ≠ "Forwarded" →
        (addHeaders r cfg).1.Header.Get "Forwarded" =
          r.Header.Get "Forwarded" ++
            (if cfg.LocalIP ≠ "" then "; by=" ++ cfg.LocalIP else "")) := by
  rw [addHeaders_ok cfg hp]
  refine ⟨?_, ?_, ?_⟩
  · intro k hF hXF hC hT h0
    have nc : ∀ K, CanonicalMIMEHeaderKey k = K → ¬ clientIPWrites cfg K :=
      fun K e h => hC (e.trans h.2)
    have nt : ∀ K, CanonicalMIMEHeaderKey k = K → ¬ tlsWrites cfg r K :=
      fun K e h => hT (e.trans h.2)
    by_cases e1 : CanonicalMIMEHeaderKey k = "X-Real-Ip"
    · have g : ∀ h : Header, h.Get k = h.Get "X-Real-Ip" :=
        fun h => h.Get_congr (e1.trans canon_realIP.symm)
      simp only [g] at h0 ⊢
      rw [enrich_Get_realIP, if_neg (nt _ e1), if_neg (nc _ e1), if_neg h0]
    · by_cases e2 : CanonicalMIMEHeaderKey k = "X-Forwarded-Proto"
      · have g : ∀ h : Header, h.Get k = h.Get "X-Forwarded-Proto" :=
          fun h => h.Get_congr (e2.trans canon_forwardedProto.symm)
        simp only [g] at h0 ⊢
        rw [enrich_Get_forwardedProto_any, if_neg (nt _ e2), if_neg (nc _ e2), if_neg h0]
      · by_cases e3 : CanonicalMIMEHeaderKey k = "X-Forwarded-Port"
        · have g : ∀ h : Header, h.Get k = h.Get "X-Forwarded-Port" :=
            fun h => h.Get_congr (e3.trans canon_forwardedPort.symm)
          simp only [g] at h0 ⊢
          rw [enrich_Get_forwardedPort, if_neg (nt _ e3), if_neg (nc _ e3), if_neg h0]
        · apply enrich_Get_frame r cfg ip k
          · simp [forwardingHeaders, e1, e2, e3, hF, hXF]
          · exact nc _ rfl
          · exact nt _ rfl
  · intro hU hCU hCF hTF
    have c1 : ¬ clientIPWrites cfg "Upgrade" := fun h => hCU h.2.symm
    have c2 : ¬ clientIPWrites cfg "X-Forwarded-For" := fun h => hCF h.2.symm
    have t2 : ¬ tlsWrites cfg r "X-Forwarded-For" := fun h => hTF h.2.symm
    rw [enrich_Get_forwardedFor_any, if_neg t2, if_neg c1, if_neg hU, if_neg c2]
  · intro h0 hCF hTF
    have c2 : ¬ clientIPWrites cfg "Forwarded" := fun h => hCF h.2.symm
    have t2 : ¬ tlsWrites cfg r "Forwarded" := fun h => hTF h.2.symm
    rw [enrich_Get_forwarded_any, if_neg t2, if_neg c2, if_neg h0]

/-- Witness for C16 (as amended): a client-supplied `X-Forwarded-Proto` and a
client-supplied `Forwarded` on a plain request. -/
theorem addHeaders_present_kept_witness :
    (addHeaders (sampleRequest [("X-Forwarded-Proto", "https"), ("Forwarded", "for=8.8.8.8")]
        false) plainConfig).1.Header.Get "X-Forwarded-Proto" = "https" ∧
      (addHeaders (sampleRequest [("X-Forwarded-Proto", "https"), ("Forwarded", "for=8.8.8.8")]
        false) plainConfig).1.Header.Get "Forwarded" = "for=8.8.8.8; by=10.0.0.1" := by
  have h := addHeaders_present_kept
    (sampleRequest [("X-Forwarded-Proto", "https"), ("Forwarded", "for=8.8.8.8")] false)
    plainConfig "1.2.3.4" "5678" rfl
  refine ⟨?_, ?_⟩
  · rw [h.1 "X-Forwarded-Proto" (by decide) (by decide) (by decide) (by decide) (by decide)]
    decide
  · rw [h.2.2 (by decide) (by decide) (by decide)]
    decide

/-- Counterexample to C16 as stated (every header name other than
`Forwarded`): a websocket request that carries `X-Forwarded-For: 7.7.7.7` leaves
`addHeaders` with `X-Forwarded-For: 1.2.3.4`. -/
theorem addHeaders_forwardedFor_overwritten :
    SplitHostPort (sampleRequest [("Upgrade", "websocket"), ("X-Forwarded-For", "7.7.7.7")]
        false).RemoteAddr = .ok ("1.2.3.4", "5678") ∧
      (sampleRequest [("Upgrade", "websocket"), ("X-Forwarded-For", "7.7.7.7")]
        false).Header.Get "X-Forwarded-For" = "7.7.7.7" ∧
      (addHeaders (sampleRequest [("Upgrade", "websocket"), ("X-Forwarded-For", "7.7.7.7")]
        false) plainConfig).1.Header.Get "X-Forwarded-For" = "1.2.3.4" :=
  ⟨rfl, by decide, by decide⟩

/-! ## `target` -/

/-- C17: `target` returns what the table's `Lookup` returns for the request and
the value of its `trace` header; it returns `nil` exactly when `Lookup` does;
and it logs one warning, which ends in the request's host followed by its URL,
when `Lookup` finds nothing and logs nothing otherwise. -/
theorem target_lookup (lookup : Request → String → Option Target) (r : Request) :
    (target lookup r).1 = lookup r (r.Header.Get "trace") ∧
      ((target lookup r).1 = none ↔ lookup r (r.Header.Get "trace") = none) ∧
      (lookup r (r.Header.Get "trace") = none →
        (target lookup r).2 = ["[WARN] No route for " ++ r.Host ++ r.URL]) ∧
      (lookup r (r.Header.Get "trace") ≠ none → (target lookup r).2 = []) ∧
      (∀ line ∈ (target lookup r).2, ∃ pre, line = pre ++ r.Host ++ r.URL) := by
  unfold target
  cases h : lookup r (r.Header.Get "trace") with
  | none =>
    refine ⟨rfl, Iff.rfl, fun _ => rfl, fun hne => absurd rfl hne, ?_⟩
    intro line hl
    simp only [List.mem_singleton] at hl
    exact ⟨"[WARN] No route for ", hl⟩
  | some t =>
    refine ⟨rfl, Iff.rfl, fun hn => Option.noConfusion hn, fun _ => rfl, ?_⟩
    intro line hl
    simp at hl

/-- Witness for C17: no route for `unknown.example` gives `nil` and one
warning; the host with a route gives its target and no warning. -/
theorem target_lookup_witness :
    target emptyTable (hostRequest "unknown.example" false) =
        (none, ["[WARN] No route for unknown.example/"]) ∧
      target oneRouteTable (hostRequest "example.com:8080" false) =
        (some ⟨"http://10.1.1.1:9000/"⟩, []) := by
  have h1 := target_lookup emptyTable (hostRequest "unknown.example" false)
  have h2 := target_lookup oneRouteTable (hostRequest "example.com:8080" false)
  refine ⟨Prod.ext ?_ ?_, Prod.ext ?_ ?_⟩
  · exact h1.1
  · rw [h1.2.2.1 rfl]; decide
  · rw [h2.1]; decide
  · exact h2.2.2.2.1 (by decide)

/-! ## Frame, the TLS header without TLS, and lower-case reserved names -/

/-- C18: for a request with a parseable peer address and any config, a header
whose name, after canonicalisation, is none of `X-Real-Ip`, `X-Forwarded-For`,
`X-Forwarded-Proto`, `X-Forwarded-Port`, `Forwarded`, the configured
`ClientIPHeader` and the configured `TLSHeader` has the same value (and the
same list of values) after `addHeaders` as on entry; so `Upgrade` and `trace`
are not modified unless the config names them. -/
theorem addHeaders_frame (r : Request) (cfg : Proxy) (ip port : String)
    (hp : SplitHostPort r.RemoteAddr = .ok (ip, port)) :
    (∀ k : String, CanonicalMIMEHeaderKey k ∉ forwardingHeaders →
        CanonicalMIMEHeaderKey k ≠ CanonicalMIMEHeaderKey cfg.ClientIPHeader →
        CanonicalMIMEHeaderKey k ≠ CanonicalMIMEHeaderKey cfg.TLSHeader →
        (addHeaders r cfg).1.Header.Get k = r.Header.Get k ∧
          (addHeaders r cfg).1.Header.vals (CanonicalMIMEHeaderKey k) =
            r.Header.vals (CanonicalMIMEHeaderKey k)) ∧
      (CanonicalMIMEHeaderKey cfg.ClientIPHeader ≠ "Upgrade" →
        CanonicalMIMEHeaderKey cfg.TLSHeader ≠ "Upgrade" →
        (addHeaders r cfg).1.Header.Get "Upgrade" = r.Header.Get "Upgrade") ∧
      (CanonicalMIMEHeaderKey cfg.ClientIPHeader ≠ "Trace" →
        CanonicalMIMEHeaderKey cfg.TLSHeader ≠ "Trace" →
        (addHeaders r cfg).1.Header.Get "trace" = r.Header.Get "trace") := by
  rw [addHeaders_ok cfg hp]
  have main : ∀ k : String, CanonicalMIMEHeaderKey k ∉ forwardingHeaders →
      CanonicalMIMEHeaderKey k ≠ CanonicalMIMEHeaderKey cfg.ClientIPHeader →
      CanonicalMIMEHeaderKey k ≠ CanonicalMIMEHeaderKey cfg.TLSHeader →
      (enrich r cfg ip).Get k = r.Header.Get k ∧
        (enrich r cfg ip).vals (CanonicalMIMEHeaderKey k) =
          r.Header.vals (CanonicalMIMEHeaderKey k) := by
    intro k h5 hC hT
    have nc : ¬ clientIPWrites cfg (CanonicalMIMEHeaderKey k) := fun h => hC h.2
    have nt : ¬ tlsWrites cfg r (CanonicalMIMEHeaderKey k) := fun h => hT h.2
    exact ⟨enrich_Get_frame r cfg ip k h5 nc nt, enrich_vals_frame r cfg ip _ h5 nc nt⟩
  refine ⟨main, ?_, ?_⟩
  · intro hC hT
    exact (main "Upgrade" (by decide) (by rw [canon_upgrade]; exact fun e => hC e.symm)
      (by rw [canon_upgrade]; exact fun e => hT e.symm)).1
  · intro hC hT
    have ct : CanonicalMIMEHeaderKey "trace" = "Trace" := by decide
    exact (main "trace" (by decide) (by rw [ct]; exact fun e => hC e.symm)
      (by rw [ct]; exact fun e => hT e.symm)).1

/-- Witness for C18: `Upgrade`, `trace` and a `Cookie` header pass through a
TLS websocket request with both config headers set. -/
theorem addHeaders_frame_witness :
    (addHeaders (sampleRequest [("Upgrade", "websocket"), ("Trace", "on"), ("Cookie", "a=b")]
        true) stampConfig).1.Header.Get "Upgrade" = "websocket" ∧
      (addHeaders (sampleRequest [("Upgrade", "websocket"), ("Trace", "on"), ("Cookie", "a=b")]
        true) stampConfig).1.Header.Get "trace" = "on" ∧
      (addHeaders (sampleRequest [("Upgrade", "websocket"), ("Trace", "on"), ("Cookie", "a=b")]
        true) stampConfig).1.Header.Get "cookie" = "a=b" := by
  have h := addHeaders_frame
    (sampleRequest [("Upgrade", "websocket"), ("Trace", "on"), ("Cookie", "a=b")] true)
    stampConfig "1.2.3.4" "5678" rfl
  refine ⟨?_, ?_, ?_⟩
  · rw [h.2.1 (by decide) (by decide)]; decide
  · rw [h.2.2 (by decide) (by decide)]; decide
  · rw [(h.1 "cookie" (by decide) (by decide) (by decide)).1]; decide

/-- C19 (as amended): for a request with a parseable peer address and no TLS
session, and a config whose `TLSHeader` is non-empty, names another header than
`ClientIPHeader` (the two compared after canonicalisation) and names none of
the five forwarding headers, the header named `TLSHeader` has the same value
after `addHeaders` as on entry. -/
theorem addHeaders_tlsHeader_plaintext (r : Request) (cfg : Proxy) (ip port : String)
    (hp : SplitHostPort r.RemoteAddr = .ok (ip, port))
    (htls : r.TLS = none) (_hne : cfg.TLSHeader ≠ "")
    (hd : CanonicalMIMEHeaderKey cfg.TLSHeader ≠ CanonicalMIMEHeaderKey cfg.ClientIPHeader)
    (h5 : CanonicalMIMEHeaderKey cfg.TLSHeader ∉ forwardingHeaders) :
    (addHeaders r cfg).1.Header.Get cfg.TLSHeader = r.Header.Get cfg.TLSHeader := by
  rw [addHeaders_ok cfg hp]
  apply enrich_Get_frame r cfg ip cfg.TLSHeader h5
  · exact fun h => hd h.2
  · rintro ⟨⟨_, h2⟩, _⟩
    rw [htls] at h2
    exact absurd h2 (by decide)

/-- Witness for C19 (as amended): a client-supplied `Strict-Transport-Security` equal to
`TLSHeaderValue` reaches the backend on a plaintext connection. -/
theorem addHeaders_tlsHeader_plaintext_witness :
    (addHeaders (sampleRequest [("Strict-Transport-Security", "max-age=63072000")] false)
      stampConfig).1.Header.Get stampConfig.TLSHeader = "max-age=63072000" := by
  rw [addHeaders_tlsHeader_plaintext
    (sampleRequest [("Strict-Transport-Security", "max-age=63072000")] false) stampConfig
    "1.2.3.4" "5678" rfl (by decide) (by decide) (by decide) (by decide)]
  decide

/-- Counterexample to C19 as stated (`TLSHeader` differs from
`ClientIPHeader`): `X-Tls-Info` and `x-tls-info` differ as strings and name the
same header, so on a plaintext connection the client-IP statement replaces the
client-supplied `X-Tls-Info: on` by the peer IP. -/
theorem addHeaders_tlsHeader_plaintext_overwritten :
    SplitHostPort (sampleRequest [("X-Tls-Info", "on")] false).RemoteAddr =
        .ok ("1.2.3.4", "5678") ∧
      (sampleRequest [("X-Tls-Info", "on")] false).TLS = none ∧
      sameHeaderConfig.TLSHeader ≠ "" ∧
      sameHeaderConfig.TLSHeader ≠ sameHeaderConfig.ClientIPHeader ∧
      CanonicalMIMEHeaderKey sameHeaderConfig.TLSHeader ∉ forwardingHeaders ∧
      (sampleRequest [("X-Tls-Info", "on")] false).Header.Get sameHeaderConfig.TLSHeader =
        "on" ∧
      (addHeaders (sampleRequest [("X-Tls-Info", "on")] false)
        sameHeaderConfig).1.Header.Get sameHeaderConfig.TLSHeader = "1.2.3.4" :=
  ⟨rfl, by decide, by decide, by decide, by decide, by decide, by decide⟩

/-- C20: the reserved-name guard compares the exact spelling while
`Header.Set` canonicalises: with `ClientIPHeader` spelled `x-real-ip`
(respectively `x-forwarded-for`) the client-IP statement fires, and, the TLS
header not naming that header, `X-Real-Ip` (respectively `X-Forwarded-For`)
after `addHeaders` is the client IP whatever it was on entry. -/
theorem addHeaders_lowercase_reserved (r : Request) (cfg : Proxy) (ip port : String)
    (hp : SplitHostPort r.RemoteAddr = .ok (ip, port)) :
    (cfg.ClientIPHeader = "x-real-ip" →
        CanonicalMIMEHeaderKey cfg.TLSHeader ≠ "X-Real-Ip" →
        clientIPWrites cfg "X-Real-Ip" ∧
          (addHeaders r cfg).1.Header.Get "X-Real-Ip" = ip) ∧
      (cfg.ClientIPHeader = "x-forwarded-for" →
        CanonicalMIMEHeaderKey cfg.TLSHeader ≠ "X-Forwarded-For" →
        clientIPWrites cfg "X-Forwarded-For" ∧
          (addHeaders r cfg).1.Header.Get "X-Forwarded-For" = ip) := by
  rw [addHeaders_ok cfg hp]
  constructor
  · intro hc hT
    have t : ¬ tlsWrites cfg r "X-Real-Ip" := fun h => hT h.2.symm
    have c : clientIPWrites cfg "X-Real-Ip" := by
      unfold clientIPWrites
      rw [hc]
      decide
    refine ⟨c, ?_⟩
    rw [enrich_Get_realIP, if_neg t, if_pos c]
    simp
  · intro hc hT
    have t : ¬ tlsWrites cfg r "X-Forwarded-For" := fun h => hT h.2.symm
    have c : clientIPWrites cfg "X-Forwarded-For" := by
      unfold clientIPWrites
      rw [hc]
      decide
    refine ⟨c, ?_⟩
    rw [enrich_Get_forwardedFor_any, if_neg t, if_pos c]
    simp

/-- Witness for C20: with `Upgrade` absent, a request carrying
`X-Real-Ip: 9.9.9.9` (respectively `X-Forwarded-For: 9.9.9.9`) leaves with
`1.2.3.4`, the peer IP. -/
theorem addHeaders_lowercase_reserved_witness :
    ((sampleRequest [("X-Real-Ip", "9.9.9.9")] false).Header.Get "X-Real-Ip" = "9.9.9.9" ∧
        (sampleRequest [("X-Real-Ip", "9.9.9.9")] false).Header.Get "Upgrade" = "" ∧
        (addHeaders (sampleRequest [("X-Real-Ip", "9.9.9.9")] false)
          lowerRealIPConfig).1.Header.Get "X-Real-Ip" = "1.2.3.4") ∧
      ((sampleRequest [("X-Forwarded-For", "9.9.9.9")] false).Header.Get "X-Forwarded-For" =
          "9.9.9.9" ∧
        (sampleRequest [("X-Forwarded-For", "9.9.9.9")] false).Header.Get "Upgrade" = "" ∧
        (addHeaders (sampleRequest [("X-Forwarded-For", "9.9.9.9")] false)
          lowerForwardedForConfig).1.Header.Get "X-Forwarded-For" = "1.2.3.4") :=
  ⟨⟨by decide, by decide,
      ((addHeaders_lowercase_reserved (sampleRequest [("X-Real-Ip", "9.9.9.9")] false)
        lowerRealIPConfig "1.2.3.4" "5678" rfl).1 rfl (by decide)).2⟩,
    ⟨by decide, by decide,
      ((addHeaders_lowercase_reserved (sampleRequest [("X-Forwarded-For", "9.9.9.9")] false)
        lowerForwardedForConfig "1.2.3.4" "5678" rfl).2 rfl (by decide)).2⟩⟩

end Fabio
